import Mathlib

/-!
Verification development for the ARSANA letter-registry backend.

The definitions below are a shallow embedding of the TypeScript source:
  - the Zod validation schemas of the incoming/outgoing letter controllers,
  - the calendar-event projector (create/update/delete helpers),
  - the cron jobs (upcoming events, overdue invitations),
  - the CRUD controllers' authorization, duplicate-key and file handling.

Timestamps are modelled as `Int` milliseconds since the epoch (the value of
`Date.getTime()`); nullable columns as `Option`; database tables as lists.
-/

namespace Arsana

/-- User roles, from the Prisma enum Role. -/
inductive Role where
  | ADMIN
  | STAFF
deriving DecidableEq, Repr

/-- Letter nature enum, from the Prisma enum LetterNature. -/
inductive LetterNature where
  | BIASA
  | TERBATAS
  | RAHASIA
  | SANGAT_RAHASIA
  | PENTING
deriving DecidableEq, Repr

/-- Disposition method enum, from the Prisma enum DispositionMethod. -/
inductive DispositionMethod where
  | MANUAL
  | SRIKANDI
deriving DecidableEq, Repr

/-- Disposition target enum, from the Prisma enum DispositionType. -/
inductive DispositionType where
  | UMPEG
  | PERENCANAAN
  | KAUR_KEUANGAN
  | KABID
  | BIDANG1
  | BIDANG2
  | BIDANG3
  | BIDANG4
  | BIDANG5
deriving DecidableEq, Repr

/-- Notification severity, from the Prisma enum NotificationType. -/
inductive NotificationType where
  | INFO
  | WARNING
  | SUCCESS
  | ERROR
deriving DecidableEq, Repr

/-- Calendar event type, from the Prisma enum EventType. -/
inductive EventType where
  | MEETING
  | APPOINTMENT
  | DEADLINE
  | OTHER
deriving DecidableEq, Repr

/-- A stored in-app notification row (`notifications` table).
`userId = none` is a broadcast visible to all users. -/
structure Notification where
  title : String
  message : String
  ntype : NotificationType
  userId : Option String
deriving DecidableEq, Repr

/-- JavaScript `x || d` on a nullable string: both `null` and the empty
string fall back to the default. -/
def jsOrString (o : Option String) (d : String) : String :=
  match o with
  | some s => if s = "" then d else s
  | none => d

/-- JavaScript `x || null` on a nullable string: the empty string becomes
`null`. -/
def jsOrNull (o : Option String) : Option String :=
  match o with
  | some s => if s = "" then none else some s
  | none => none

/-!
## Letter submissions and Zod validation schemas

A `LetterSubmission` is the request body of a create call after type-level
parsing (strings, booleans, and ISO datetimes turned into timestamps).
`dispositionMethod` and `dispositionTarget` are `Option`s because the two
schema versions disagree on whether they are required.
-/

/-- An incoming-letter create submission, after datetime parsing. -/
structure LetterSubmission where
  letterNumber : String
  letterDate : Option Int
  letterNature : LetterNature
  subject : String
  sender : String
  recipient : String
  processor : String
  note : Option String
  receivedDate : Int
  isInvitation : Bool
  eventDate : Option Int
  eventTime : Option String
  eventLocation : Option String
  eventNotes : Option String
  needsFollowUp : Bool
  followUpDeadline : Option Int
  dispositionMethod : Option DispositionMethod
  srikandiDispositionNumber : Option String
  dispositionTarget : Option String
deriving DecidableEq, Repr

/-- Zod's `.trim()` transform: strip leading and trailing whitespace
(written over the character list so that it evaluates by reduction). -/
def zodTrim (s : String) : String :=
  String.mk (((s.toList.dropWhile Char.isWhitespace).reverse.dropWhile
    Char.isWhitespace).reverse)

/-- Characters allowed by the regex of the first `letterNumber` rule:
letters, digits, hyphen, slash, dot. -/
def allowedLetterNumberChar (c : Char) : Bool :=
  c.isAlpha || c.isDigit || c = '-' || c = '/' || c = '.'

/-- One field-level check: an empty list when it passes, the field path
when it fails (mirrors one Zod issue). -/
def fieldCheck (ok : Bool) (field : String) : List String :=
  if ok then [] else [field]

/-- A check applied only when the optional value is provided. -/
def optCheck (o : Option String) (p : String → Bool) (field : String) : List String :=
  match o with
  | some s => fieldCheck (p s) field
  | none => []

/-- Field-level issues of `incomingLetterSchema` (the first create schema):
letterNumber trim/min 3/max 50/charset regex, subject 5..200,
sender/recipient/processor 2..100, note max 1000, receivedDate not in the
future, eventTime max 20, eventLocation max 200, eventNotes max 1000,
srikandiDispositionNumber max 100. -/
def incomingLetterFieldErrors (now : Int) (s : LetterSubmission) : List String :=
  fieldCheck (3 ≤ (zodTrim s.letterNumber).length) "letterNumber" ++
  fieldCheck ((zodTrim s.letterNumber).length ≤ 50) "letterNumber" ++
  fieldCheck ((zodTrim s.letterNumber).toList.all allowedLetterNumberChar) "letterNumber" ++
  fieldCheck (5 ≤ s.subject.length) "subject" ++
  fieldCheck (s.subject.length ≤ 200) "subject" ++
  fieldCheck (2 ≤ s.sender.length) "sender" ++
  fieldCheck (s.sender.length ≤ 100) "sender" ++
  fieldCheck (2 ≤ s.recipient.length) "recipient" ++
  fieldCheck (s.recipient.length ≤ 100) "recipient" ++
  fieldCheck (2 ≤ s.processor.length) "processor" ++
  fieldCheck (s.processor.length ≤ 100) "processor" ++
  optCheck s.note (fun n => n.length ≤ 1000) "note" ++
  fieldCheck (s.receivedDate ≤ now) "receivedDate" ++
  optCheck s.eventTime (fun t => t.length ≤ 20) "eventTime" ++
  optCheck s.eventLocation (fun l => l.length ≤ 200) "eventLocation" ++
  optCheck s.eventNotes (fun n => n.length ≤ 1000) "eventNotes" ++
  optCheck s.srikandiDispositionNumber (fun n => n.length ≤ 100) "srikandiDispositionNumber"

/-- The `.refine` of `incomingLetterSchema`: an invitation must have an
event date, and a provided event date must be strictly after the received
date. -/
def invitationRefineOk (s : LetterSubmission) : Bool :=
  if s.isInvitation && s.eventDate.isNone then
    false
  else
    match s.eventDate with
    | some e => decide (s.receivedDate < e)
    | none => true

/-- Full issue list of `incomingLetterSchema`: the refinement (whose issue
path is `eventDate`) only runs when the field-level checks pass. -/
def incomingLetterSchemaErrors (now : Int) (s : LetterSubmission) : List String :=
  let fe := incomingLetterFieldErrors now s
  if fe.isEmpty then
    if invitationRefineOk s then [] else ["eventDate"]
  else fe

/-- Field-level issues of `incomingLetterBaseSchema` (the refactored create
schema, `incomingLetterCreateSchema = z.object(incomingLetterBaseSchema)`):
letterNumber trim/min 3/max 50 (no charset regex), subject 5..200,
sender/recipient/processor 2..100, dispositionMethod required,
dispositionTarget required nonempty, note max 1000, eventTime max 20,
eventLocation max 200, eventNotes max 1000. It has no `.refine`, hence no
invitation/eventDate cross-field rule and no future check on receivedDate. -/
def incomingLetterBaseSchemaErrors (s : LetterSubmission) : List String :=
  fieldCheck (3 ≤ (zodTrim s.letterNumber).length) "letterNumber" ++
  fieldCheck ((zodTrim s.letterNumber).length ≤ 50) "letterNumber" ++
  fieldCheck (5 ≤ s.subject.length) "subject" ++
  fieldCheck (s.subject.length ≤ 200) "subject" ++
  fieldCheck (2 ≤ s.sender.length) "sender" ++
  fieldCheck (s.sender.length ≤ 100) "sender" ++
  fieldCheck (2 ≤ s.recipient.length) "recipient" ++
  fieldCheck (s.recipient.length ≤ 100) "recipient" ++
  fieldCheck (2 ≤ s.processor.length) "processor" ++
  fieldCheck (s.processor.length ≤ 100) "processor" ++
  fieldCheck s.dispositionMethod.isSome "dispositionMethod" ++
  fieldCheck (match s.dispositionTarget with
    | some t => 1 ≤ t.length
    | none => false) "dispositionTarget" ++
  optCheck s.note (fun n => n.length ≤ 1000) "note" ++
  optCheck s.eventTime (fun t => t.length ≤ 20) "eventTime" ++
  optCheck s.eventLocation (fun l => l.length ≤ 200) "eventLocation" ++
  optCheck s.eventNotes (fun n => n.length ≤ 1000) "eventNotes"

/-- A patch for `updateIncomingLetterSchema` (every field optional,
nullable ones carry an inner Option). -/
structure LetterPatch where
  letterNumber : Option String
  letterDate : Option (Option Int)
  letterNature : Option LetterNature
  subject : Option String
  sender : Option String
  recipient : Option String
  processor : Option String
  note : Option (Option String)
  receivedDate : Option Int
  isInvitation : Option Bool
  eventDate : Option (Option Int)
  eventTime : Option (Option String)
  eventLocation : Option (Option String)
  eventNotes : Option (Option String)
  needsFollowUp : Option Bool
  followUpDeadline : Option (Option Int)
deriving DecidableEq, Repr

/-- Issues of `updateIncomingLetterSchema`: the same per-field bounds as
the create schema, each applied only when the field is provided, and no
`.refine` at all (no invitation rule and no future check). -/
def updateIncomingLetterSchemaErrors (p : LetterPatch) : List String :=
  optCheck p.letterNumber (fun n => 3 ≤ n.length && n.length ≤ 50 &&
    n.toList.all allowedLetterNumberChar) "letterNumber" ++
  optCheck p.subject (fun x => 5 ≤ x.length && x.length ≤ 200) "subject" ++
  optCheck p.sender (fun x => 2 ≤ x.length && x.length ≤ 100) "sender" ++
  optCheck p.recipient (fun x => 2 ≤ x.length && x.length ≤ 100) "recipient" ++
  optCheck p.processor (fun x => 2 ≤ x.length && x.length ≤ 100) "processor" ++
  (match p.note with
   | some (some n) => fieldCheck (n.length ≤ 1000) "note"
   | _ => []) ++
  (match p.eventTime with
   | some (some t) => fieldCheck (t.length ≤ 20) "eventTime"
   | _ => []) ++
  (match p.eventLocation with
   | some (some l) => fieldCheck (l.length ≤ 200) "eventLocation"
   | _ => []) ++
  (match p.eventNotes with
   | some (some n) => fieldCheck (n.length ≤ 1000) "eventNotes"
   | _ => [])

/-!
## Stored rows
-/

/-- A stored incoming letter row (`incoming_letters` table), restricted to
the columns the verified operations read or write. -/
structure IncomingLetter where
  id : Nat
  userId : String
  letterNumber : String
  subject : String
  sender : String
  recipient : String
  processor : String
  isInvitation : Bool
  eventDate : Option Int
  eventTime : Option String
  eventLocation : Option String
  eventNotes : Option String
  needsFollowUp : Bool
  followUpDeadline : Option Int
  overdueNotifiedAt : Option Int
  fileName : Option String
  filePath : Option String
deriving DecidableEq, Repr

/-- A stored calendar event row (`calendar_events` table). The migration
declares `notified3Days` and `notified1Day` with `DEFAULT false` and
`userId` as `NOT NULL`. -/
structure CalendarEvent where
  id : Nat
  title : String
  description : String
  date : Int
  time : Option String
  location : Option String
  etype : EventType
  notified3Days : Bool
  notified1Day : Bool
  incomingLetterId : Option Nat
  userId : String
deriving DecidableEq, Repr

/-- A stored disposition row (`dispositions` table). -/
structure Disposition where
  id : Nat
  incomingLetterId : Nat
  dispositionTo : DispositionType
  notes : Option String
  createdById : Option String
deriving DecidableEq, Repr

/-!
## Calendar Event Projector

Shallow embedding of `createCalendarEventFromLetter`,
`updateCalendarEventFromLetter` and `deleteCalendarEventByLetterId`.
The `calendar_events` table is a list; `findFirst` is `List.find?`,
`create` appends a row with a fresh id, `update`/`delete` act on the
found row's id.
-/

/-- The `description` written by the projector:
`Surat Masuk: <letterNumber>` followed by a newline and the event notes
(empty string when null). -/
def eventDescription (l : IncomingLetter) : String :=
  "Surat Masuk: " ++ l.letterNumber ++ "\n" ++ (l.eventNotes.getD "")

/-- The event row `createCalendarEventFromLetter` inserts: title from the
subject, synthesized description, date/time/location from the invitation
fields (`x || null`), type MEETING, pointing at the letter; the two
notification flags take the migration's `DEFAULT false`. -/
def newCalendarEvent (freshId : Nat) (l : IncomingLetter) (userId : String) : CalendarEvent :=
  { id := freshId
  , title := l.subject
  , description := eventDescription l
  , date := l.eventDate.getD 0
  , time := jsOrNull l.eventTime
  , location := jsOrNull l.eventLocation
  , etype := EventType.MEETING
  , notified3Days := false
  , notified1Day := false
  , incomingLetterId := some l.id
  , userId := userId }

/-- `createCalendarEventFromLetter`: returns unchanged unless the letter
is an invitation with an event date, in which case it inserts one event. -/
def createCalendarEventFromLetter (freshId : Nat) (l : IncomingLetter) (userId : String)
    (evs : List CalendarEvent) : List CalendarEvent :=
  if l.isInvitation = false ∨ l.eventDate = none then evs
  else evs ++ [newCalendarEvent freshId l userId]

/-- `deleteCalendarEventByLetterId`: `findFirst` by the letter id, and if
an event is found, delete the row with that event's id. -/
def deleteCalendarEventByLetterId (letterId : Nat) (evs : List CalendarEvent) :
    List CalendarEvent :=
  match evs.find? (fun e => e.incomingLetterId = some letterId) with
  | some e => evs.filter (fun x => x.id ≠ e.id)
  | none => evs

/-- The field overwrite `updateCalendarEventFromLetter` applies to an
existing event: title/description/date/time/location/type from the letter
and both notification flags reset to false. -/
def overwriteCalendarEvent (l : IncomingLetter) (e : CalendarEvent) : CalendarEvent :=
  { e with
    title := l.subject
  , description := eventDescription l
  , date := l.eventDate.getD 0
  , time := jsOrNull l.eventTime
  , location := jsOrNull l.eventLocation
  , etype := EventType.MEETING
  , notified3Days := false
  , notified1Day := false }

/-- `updateCalendarEventFromLetter` (the projector's `sync`): if the
letter is not (or no longer) an invitation or lacks an event date, delete
the existing event; else overwrite the found event, or create one if none
exists. -/
def updateCalendarEventFromLetter (freshId : Nat) (l : IncomingLetter) (userId : String)
    (evs : List CalendarEvent) : List CalendarEvent :=
  if l.isInvitation = false ∨ l.eventDate = none then
    deleteCalendarEventByLetterId l.id evs
  else
    match evs.find? (fun e => e.incomingLetterId = some l.id) with
    | some e => evs.map (fun x => if x.id = e.id then overwriteCalendarEvent l x else x)
    | none => createCalendarEventFromLetter freshId l userId evs

/-- The events of the table that belong to a given letter. -/
def eventsFor (letterId : Nat) (evs : List CalendarEvent) : List CalendarEvent :=
  evs.filter (fun e => e.incomingLetterId = some letterId)

/-!
## Reminder Scheduler: upcoming-event job

Shallow embedding of `checkUpcomingEvents` (the calendar-event version):
select events with `now ≤ date ≤ threeDaysLater` whose 3-day or 1-day
flag is still false, compute the integer day distance as
`Math.ceil((date - now) / 86400000)`, and fire each threshold whose flag
is false, setting the flag. `threeDaysLater` (the code's
`now + 3 days` at local 23:59:59.999) is kept as a parameter `upper`.
-/

/-- Milliseconds per day, the divisor in the reminder job. -/
def msPerDay : Int := 86400000

/-- Integer ceiling of `a / b` for a positive divisor, the value of
JavaScript `Math.ceil(a / b)` on integer inputs. -/
def ceilDiv (a b : Int) : Int := -((-a).ediv b)

/-- `daysUntilEvent` from `checkUpcomingEvents`. -/
def daysUntilEvent (now date : Int) : Int := ceilDiv (date - now) msPerDay

/-- The reminder thresholds of the upcoming-event job. -/
inductive Threshold where
  | threeDays
  | oneDay
deriving DecidableEq, Repr

/-- The `where` clause of the upcoming-event query. -/
def upcomingSelected (now upper : Int) (e : CalendarEvent) : Bool :=
  decide (now ≤ e.date) && decide (e.date ≤ upper) &&
    (!e.notified3Days || !e.notified1Day)

/-- The 3-day reminder notification: INFO, addressed to the event's
`userId` (the fourth argument of `createNotification`). -/
def upcoming3Notification (e : CalendarEvent) : Notification :=
  { title := "Pengingat Acara (3 Hari Lagi)"
  , message := "Acara \"" ++ e.title ++ "\" akan berlangsung dalam 3 hari di " ++
      jsOrString e.location "lokasi belum ditentukan"
  , ntype := NotificationType.INFO
  , userId := some e.userId }

/-- The 1-day reminder notification: INFO, addressed to the event's
`userId`. -/
def upcoming1Notification (e : CalendarEvent) : Notification :=
  { title := "Pengingat Acara (Besok)"
  , message := "Acara \"" ++ e.title ++ "\" akan berlangsung besok di " ++
      jsOrString e.location "lokasi belum ditentukan"
  , ntype := NotificationType.INFO
  , userId := some e.userId }

/-- The loop body of `checkUpcomingEvents` for one fetched event: two
independent `if`s on the fetched row, each creating a notification and
setting the corresponding flag. Emissions are tagged with the threshold
they fired. -/
def processUpcomingEvent (now : Int) (e : CalendarEvent) :
    CalendarEvent × List (Threshold × Notification) :=
  let d := daysUntilEvent now e.date
  let afterThree : CalendarEvent × List (Threshold × Notification) :=
    if d = 3 ∧ e.notified3Days = false then
      ({ e with notified3Days := true }, [(Threshold.threeDays, upcoming3Notification e)])
    else (e, [])
  if d = 1 ∧ e.notified1Day = false then
    ({ afterThree.1 with notified1Day := true },
      afterThree.2 ++ [(Threshold.oneDay, upcoming1Notification e)])
  else afterThree

/-- One emission of the upcoming-event job: the id of the event it was
fired for, the threshold, and the created notification row. -/
abbrev Emission := Nat × Threshold × Notification

/-- One run of `checkUpcomingEvents` over the events table: each selected
event is processed in place (rows have distinct ids, so the per-row
`update where id` rewrites exactly that row); unselected rows are
untouched. Returns the new table and the emissions in loop order. -/
def runUpcomingEvents (now upper : Int) :
    List CalendarEvent → List CalendarEvent × List Emission
  | [] => ([], [])
  | e :: rest =>
    if upcomingSelected now upper e then
      ((processUpcomingEvent now e).1 :: (runUpcomingEvents now upper rest).1,
        (processUpcomingEvent now e).2.map (fun q => (e.id, q)) ++
          (runUpcomingEvents now upper rest).2)
    else
      (e :: (runUpcomingEvents now upper rest).1, (runUpcomingEvents now upper rest).2)

/-- The emissions of a combined emission list that fired a given threshold
for a given event id. -/
def emissionsFor (eventId : Nat) (t : Threshold) (ems : List Emission) : List Emission :=
  ems.filter (fun x => x.1 = eventId ∧ x.2.1 = t)

/-!
## Reminder Scheduler: overdue-invitations job

Shallow embedding of `checkOverdueInvitations`: select at most 20 incoming
letters with `isInvitation = true`, `eventDate < now` and
`overdueNotifiedAt` null; when the batch is nonempty, create one WARNING
notification naming the batch size and stamp `overdueNotifiedAt = now` on
every selected row.
-/

/-- The `where` clause of the overdue query (`eventDate < now` does not
match a null event date). -/
def overdueSelected (now : Int) (l : IncomingLetter) : Bool :=
  l.isInvitation &&
    (match l.eventDate with
     | some d => decide (d < now)
     | none => false) &&
    l.overdueNotifiedAt.isNone

/-- The batch fetched by the overdue job: matching letters, `take: 20`. -/
def overdueBatch (now : Int) (letters : List IncomingLetter) : List IncomingLetter :=
  (letters.filter (overdueSelected now)).take 20

/-- The aggregate WARNING notification of the overdue job; the fourth
argument of `createNotification` is omitted, so the row is a broadcast. -/
def overdueNotification (count : Nat) : Notification :=
  { title := "Undangan Terlewat"
  , message := toString count ++
      " undangan acara telah melewati batas waktu dan mungkin memerlukan arsip atau tindak lanjut."
  , ntype := NotificationType.WARNING
  , userId := none }

/-- One run of `checkOverdueInvitations` over the letters table: when the
batch is nonempty, one aggregate notification and an `updateMany` setting
`overdueNotifiedAt` on the batch ids. Returns the new table and the
created notifications. -/
def runOverdueInvitations (now : Int) (letters : List IncomingLetter) :
    List IncomingLetter × List Notification :=
  let batch := overdueBatch now letters
  if batch.isEmpty then (letters, [])
  else
    ( letters.map (fun l =>
        if l.id ∈ batch.map (fun b => b.id)
        then { l with overdueNotifiedAt := some now } else l)
    , [overdueNotification batch.length] )

/-!
## Error handlers

HTTP statuses chosen by the three `handleError` functions for a thrown
error. `prismaP2002` is the duplicate-unique-key error.
-/

/-- The kinds of error the controllers' catch blocks distinguish. -/
inductive CaughtError where
  | zodError
  | prismaP2002
  | prismaP2025
  | appError (status : Nat)
  | unknown
deriving DecidableEq, Repr

/-- The first incoming controller's `handleError`: Zod → 400, code
P2002 → 400 (with field details), anything else → 500. -/
def handleErrorStatusIncomingV1 : CaughtError → Nat
  | CaughtError.zodError => 400
  | CaughtError.prismaP2002 => 400
  | CaughtError.prismaP2025 => 500
  | CaughtError.appError _ => 500
  | CaughtError.unknown => 500

/-- The refactored incoming controller's `handleError`: Zod → 400,
P2002 → 409, P2025 → 404, other Prisma/unknown → 500, AppError → its own
status. -/
def handleErrorStatusIncomingV2 : CaughtError → Nat
  | CaughtError.zodError => 400
  | CaughtError.prismaP2002 => 409
  | CaughtError.prismaP2025 => 404
  | CaughtError.appError s => s
  | CaughtError.unknown => 500

/-- The outgoing controller's `handleError`: Zod → 400, P2002 → 409,
anything else → 500. -/
def handleErrorStatusOutgoing : CaughtError → Nat
  | CaughtError.zodError => 400
  | CaughtError.prismaP2002 => 409
  | CaughtError.prismaP2025 => 500
  | CaughtError.appError _ => 500
  | CaughtError.unknown => 500

/-!
## Letter Store: create
-/

/-- The row inserted by a create from a validated submission (file name
and path from the optional upload). -/
def letterFromSubmission (freshId : Nat) (userId : String) (s : LetterSubmission)
    (file : Option (String × String)) : IncomingLetter :=
  { id := freshId
  , userId := userId
  , letterNumber := s.letterNumber
  , subject := s.subject
  , sender := s.sender
  , recipient := s.recipient
  , processor := s.processor
  , isInvitation := s.isInvitation
  , eventDate := s.eventDate
  , eventTime := s.eventTime
  , eventLocation := s.eventLocation
  , eventNotes := s.eventNotes
  , needsFollowUp := s.needsFollowUp
  , followUpDeadline := s.followUpDeadline
  , overdueNotifiedAt := none
  , fileName := file.map (fun f => f.1)
  , filePath := file.map (fun f => f.2) }

/-- Whether an insert with this letter number hits the unique constraint.
Modelled from the spec: the Prisma schema and initial migration (not in
the sources) declare `letterNumber` unique per direction, so a duplicate
insert raises P2002. -/
def duplicateLetterNumber (n : String) (letters : List IncomingLetter) : Bool :=
  letters.any (fun l => l.letterNumber = n)

/-- `createIncomingLetter` of the first controller version: validate with
`incomingLetterSchema` (Zod failure → `handleError` → 400), insert, a
duplicate letter number → `handleError` of a P2002 → 400. (The optional
"new invitation" notification side effect is not modelled; no verified
claim mentions it.) -/
def createIncomingLetterV1 (now : Int) (freshId : Nat) (userId : String)
    (s : LetterSubmission) (letters : List IncomingLetter) :
    Nat × List IncomingLetter :=
  if (incomingLetterSchemaErrors now s).isEmpty = false then
    (handleErrorStatusIncomingV1 CaughtError.zodError, letters)
  else if duplicateLetterNumber s.letterNumber letters then
    (handleErrorStatusIncomingV1 CaughtError.prismaP2002, letters)
  else
    (201, letters ++ [letterFromSubmission freshId userId s none])

/-- `createIncomingLetter` of the refactored controller: validate with
`incomingLetterCreateSchema` (no invitation refinement), insert, then if
`isInvitation` call `createCalendarEventFromLetter`; a duplicate letter
number → `handleError` of a P2002 → 409. -/
def createIncomingLetterV2 (freshId freshEventId : Nat) (userId : String)
    (s : LetterSubmission) (letters : List IncomingLetter)
    (evs : List CalendarEvent) : Nat × List IncomingLetter × List CalendarEvent :=
  if (incomingLetterBaseSchemaErrors s).isEmpty = false then
    (handleErrorStatusIncomingV2 CaughtError.zodError, letters, evs)
  else if duplicateLetterNumber s.letterNumber letters then
    (handleErrorStatusIncomingV2 CaughtError.prismaP2002, letters, evs)
  else
    let letter := letterFromSubmission freshId userId s none
    let evs2 := if s.isInvitation then
        createCalendarEventFromLetter freshEventId letter userId evs
      else evs
    (201, letters ++ [letter], evs2)

/-- A stored outgoing letter row, restricted to the columns the verified
operations read or write. -/
structure OutgoingLetter where
  id : Nat
  userId : String
  letterNumber : String
  subject : String
  filePath : Option String
deriving DecidableEq, Repr

/-- `createOutgoingLetter`, restricted to the duplicate-key path: a
duplicate letter number → its `handleError` of a P2002 → 409, otherwise
the row is inserted. -/
def createOutgoingLetter (freshId : Nat) (userId : String)
    (letterNumber subject : String) (letters : List OutgoingLetter) :
    Nat × List OutgoingLetter :=
  if letters.any (fun l => l.letterNumber = letterNumber) then
    (handleErrorStatusOutgoing CaughtError.prismaP2002, letters)
  else
    (201, letters ++ [{ id := freshId, userId := userId,
                        letterNumber := letterNumber, subject := subject,
                        filePath := none }])

/-!
## Letter Store: update and delete
-/

/-- The spread `{...validatedData}` of the refactored update: every
provided field of the patch overwrites the row, absent fields are left
alone (Prisma ignores `undefined`). -/
def applyPatch (p : LetterPatch) (l : IncomingLetter) : IncomingLetter :=
  { l with
    letterNumber := p.letterNumber.getD l.letterNumber
  , subject := p.subject.getD l.subject
  , sender := p.sender.getD l.sender
  , recipient := p.recipient.getD l.recipient
  , processor := p.processor.getD l.processor
  , isInvitation := p.isInvitation.getD l.isInvitation
  , eventDate := p.eventDate.getD l.eventDate
  , eventTime := p.eventTime.getD l.eventTime
  , eventLocation := p.eventLocation.getD l.eventLocation
  , eventNotes := p.eventNotes.getD l.eventNotes
  , needsFollowUp := p.needsFollowUp.getD l.needsFollowUp
  , followUpDeadline := p.followUpDeadline.getD l.followUpDeadline }

/-- `hasInvitationChanges` of the refactored update: the calendar
projector runs only when one of these five fields is present in the
patch. -/
def hasInvitationChanges (p : LetterPatch) : Bool :=
  p.isInvitation.isSome || p.eventDate.isSome || p.subject.isSome ||
    p.eventLocation.isSome || p.eventNotes.isSome

/-- `updateIncomingLetter` of the refactored controller, database part:
404 when the letter does not exist; 403 (AppError) when the actor is
neither the owner nor an ADMIN, leaving every table unchanged; otherwise
apply the patch and, when invitation-related fields were provided, run
the calendar projector on the updated row. -/
def updateIncomingLetterV2 (actorId : String) (actorRole : Role) (id : Nat)
    (p : LetterPatch) (freshEventId : Nat)
    (letters : List IncomingLetter) (evs : List CalendarEvent) :
    Nat × List IncomingLetter × List CalendarEvent :=
  match letters.find? (fun l => l.id = id) with
  | none => (handleErrorStatusIncomingV2 (CaughtError.appError 404), letters, evs)
  | some existing =>
    if existing.userId ≠ actorId ∧ actorRole ≠ Role.ADMIN then
      (handleErrorStatusIncomingV2 (CaughtError.appError 403), letters, evs)
    else
      let patched := applyPatch p existing
      let letters2 := letters.map (fun l => if l.id = id then patched else l)
      let evs2 := if hasInvitationChanges p then
          updateCalendarEventFromLetter freshEventId patched actorId evs
        else evs
      (200, letters2, evs2)

/-- A database store: the tables and the upload directory contents that
the delete operations touch. -/
structure Store where
  letters : List IncomingLetter
  events : List CalendarEvent
  dispositions : List Disposition
  fsys : List String
deriving DecidableEq, Repr

/-- The `ON DELETE SET NULL` action of
`calendar_events_incomingLetterId_fkey` (migration 20251017213618),
applied by the database when a letter row is deleted. -/
def fkSetNullEvents (letterId : Nat) (evs : List CalendarEvent) : List CalendarEvent :=
  evs.map (fun e =>
    if e.incomingLetterId = some letterId then { e with incomingLetterId := none } else e)

/-- The explicit `prisma.disposition.deleteMany({ where:
{ incomingLetterId: id } })` of the first delete implementation. -/
def deleteDispositionsFor (letterId : Nat) (ds : List Disposition) : List Disposition :=
  ds.filter (fun d => d.incomingLetterId ≠ letterId)

/-- Modelled from the spec: the Prisma schema (not in the sources) gives
the Disposition→IncomingLetter relation the delete cascade the refactored
delete relies on ("cascade akan handle related records"); spec section 3
states that deleting a letter cascades to dependent Dispositions. -/
def cascadeDispositions (letterId : Nat) (ds : List Disposition) : List Disposition :=
  ds.filter (fun d => d.incomingLetterId ≠ letterId)

/-- `deleteIncomingLetter` of the first controller version: 404 / 403
checks, delete the stored file, delete the letter's dispositions, delete
the letter (its calendar events are only detached by the foreign key's
SET NULL — this version never touches the `calendar_events` table). -/
def deleteIncomingLetterV1 (actorId : String) (actorRole : Role) (id : Nat)
    (st : Store) : Nat × Store :=
  match st.letters.find? (fun l => l.id = id) with
  | none => (404, st)
  | some existing =>
    if existing.userId ≠ actorId ∧ actorRole ≠ Role.ADMIN then (403, st)
    else
      let fsys2 := match existing.filePath with
        | some pa => st.fsys.erase pa
        | none => st.fsys
      (204,
        { letters := st.letters.filter (fun l => l.id ≠ id)
        , events := fkSetNullEvents id st.events
        , dispositions := deleteDispositionsFor id st.dispositions
        , fsys := fsys2 })

/-- `deleteIncomingLetter` of the refactored controller: 404 / 403
checks, `deleteCalendarEventByLetterId`, delete the stored file, delete
the letter row (dispositions removed by the cascade, any remaining
events detached by the foreign key's SET NULL). -/
def deleteIncomingLetterV2 (actorId : String) (actorRole : Role) (id : Nat)
    (st : Store) : Nat × Store :=
  match st.letters.find? (fun l => l.id = id) with
  | none => (handleErrorStatusIncomingV2 (CaughtError.appError 404), st)
  | some existing =>
    if existing.userId ≠ actorId ∧ actorRole ≠ Role.ADMIN then
      (handleErrorStatusIncomingV2 (CaughtError.appError 403), st)
    else
      let evs2 := deleteCalendarEventByLetterId id st.events
      let fsys2 := match existing.filePath with
        | some pa => st.fsys.erase pa
        | none => st.fsys
      (204,
        { letters := st.letters.filter (fun l => l.id ≠ id)
        , events := fkSetNullEvents id evs2
        , dispositions := cascadeDispositions id st.dispositions
        , fsys := fsys2 })

/-- A patch for `updateOutgoingLetterSchema`, restricted to the modelled
columns. -/
structure OutgoingPatch where
  letterNumber : Option String
  subject : Option String
deriving DecidableEq, Repr

/-- `updateOutgoingLetter`, database part: 404 when missing, 403 when the
actor is neither the owner nor an ADMIN (tables unchanged), otherwise the
patch is applied. -/
def updateOutgoingLetter (actorId : String) (actorRole : Role) (id : Nat)
    (p : OutgoingPatch) (letters : List OutgoingLetter) :
    Nat × List OutgoingLetter :=
  match letters.find? (fun l => l.id = id) with
  | none => (404, letters)
  | some existing =>
    if existing.userId ≠ actorId ∧ actorRole ≠ Role.ADMIN then (403, letters)
    else
      (200, letters.map (fun l =>
        if l.id = id then
          { l with letterNumber := p.letterNumber.getD l.letterNumber,
                   subject := p.subject.getD l.subject }
        else l))

/-- The spec's authorization predicate (section 4.1): permitted iff the
actor owns the letter or holds the administrative role. -/
def specAuthorized (actorId : String) (actorRole : Role) (ownerId : String) : Prop :=
  actorId = ownerId ∨ actorRole = Role.ADMIN

instance (actorId : String) (actorRole : Role) (ownerId : String) :
    Decidable (specAuthorized actorId actorRole ownerId) := by
  unfold specAuthorized
  infer_instance

/-!
## File replacement lifecycle of the refactored update

The controller's order of operations when the request carries a new
attachment (which multer has already written to disk before the handler
runs): delete the old stored file, attempt the database update, and on a
thrown error remove the newly uploaded file (`cleanupFileOnError`).
-/

/-- The file-affecting steps of the update, in program order. -/
inductive FileEvent where
  | deleteOldFile (path : String)
  | dbUpdate (ok : Bool)
  | cleanupNewFile (path : String)
deriving DecidableEq, Repr

/-- The event trace of `updateIncomingLetter` (refactored) for a request
carrying a new attachment: old file deleted first, then the database
update, then — only on failure — the cleanup of the new file. -/
def updateFileTrace (oldPath : Option String) (newPath : String) (dbOk : Bool) :
    List FileEvent :=
  (match oldPath with
   | some pa => [FileEvent.deleteOldFile pa]
   | none => []) ++
  [FileEvent.dbUpdate dbOk] ++
  (if dbOk then [] else [FileEvent.cleanupNewFile newPath])

/-- Effect of one file event on the upload directory (`fs.unlinkSync`
guarded by `fs.existsSync`). -/
def applyFileEvent (fsys : List String) : FileEvent → List String
  | FileEvent.deleteOldFile pa => fsys.erase pa
  | FileEvent.dbUpdate _ => fsys
  | FileEvent.cleanupNewFile pa => fsys.erase pa

/-- The upload directory after a list of file events. -/
def runFileEvents (fsys : List String) (evts : List FileEvent) : List String :=
  evts.foldl applyFileEvent fsys

/-!
## Disposition creation
-/

/-- A disposition create request body after parsing. -/
structure DispositionSubmission where
  dispositionTo : DispositionType
  notes : Option String
deriving DecidableEq, Repr

/-- Issues of `dispositionSchema`: the target is a closed enum (already
enforced by the type) and notes are capped at 1000 characters. -/
def dispositionSchemaErrors (d : DispositionSubmission) : List String :=
  optCheck d.notes (fun n => n.length ≤ 1000) "notes"

/-- `createDispositionForLetter` (incoming controller): validate the
body, 404 when the letter does not exist, otherwise insert the row with
`createdById` set to the actor. No ownership or role check is performed:
the actor's role is never read. -/
def createDispositionForLetter (actorId : String) (_actorRole : Role) (letterId : Nat)
    (d : DispositionSubmission) (freshId : Nat)
    (letters : List IncomingLetter) (ds : List Disposition) :
    Nat × List Disposition :=
  if (dispositionSchemaErrors d).isEmpty = false then (400, ds)
  else
    match letters.find? (fun l => l.id = letterId) with
    | none => (404, ds)
    | some _ =>
      (201, ds ++ [{ id := freshId, incomingLetterId := letterId,
                     dispositionTo := d.dispositionTo, notes := d.notes,
                     createdById := some actorId }])

/-- `createDisposition` (disposition controller): same flow, with the
letter id taken from the body and `createdById` left unset. The actor's
identity and role are never read. -/
def createDisposition (_actorId : String) (_actorRole : Role) (letterId : Nat)
    (d : DispositionSubmission) (freshId : Nat)
    (letters : List IncomingLetter) (ds : List Disposition) :
    Nat × List Disposition :=
  if (dispositionSchemaErrors d).isEmpty = false then (400, ds)
  else
    match letters.find? (fun l => l.id = letterId) with
    | none => (404, ds)
    | some _ =>
      (201, ds ++ [{ id := freshId, incomingLetterId := letterId,
                     dispositionTo := d.dispositionTo, notes := jsOrNull d.notes,
                     createdById := none }])

/-!
## Shared helper lemmas
-/

/-- A list of length at most one has equal members. -/
theorem mem_eq_of_length_le_one {α : Type} {l : List α} (h : l.length ≤ 1)
    {a b : α} (ha : a ∈ l) (hb : b ∈ l) : a = b := by
  match l with
  | [] => cases ha
  | [x] =>
    rcases List.mem_singleton.mp ha with rfl
    rcases List.mem_singleton.mp hb with rfl
    rfl
  | x :: y :: t => simp at h

/-- Concrete sample submission: a well-formed body except that it is
flagged as an invitation with no event date. -/
def sampleSubmission : LetterSubmission :=
  { letterNumber := "001/SK/2024"
  , letterDate := none
  , letterNature := LetterNature.BIASA
  , subject := "Rapat Koordinasi"
  , sender := "Dinas A"
  , recipient := "Dinas B"
  , processor := "Budi"
  , note := none
  , receivedDate := 1704099600000
  , isInvitation := true
  , eventDate := none
  , eventTime := none
  , eventLocation := none
  , eventNotes := none
  , needsFollowUp := false
  , followUpDeadline := none
  , dispositionMethod := some DispositionMethod.MANUAL
  , srikandiDispositionNumber := none
  , dispositionTarget := some "UMPEG" }

/-!
## Claim C1
-/

/-- Claim C1 (counterexample): the claim says every incoming-letter
create or update submission with `isInvitation = true` and a null or
non-future event date is rejected with a ValidationError naming
`eventDate`, with no letter row written. The refactored create schema
(`incomingLetterBaseSchema`) has no such rule: this submission with
`isInvitation = true` and `eventDate = null` passes validation with no
issues, the create returns 201, and a letter row is written. -/
theorem c1_invitation_rule_counterexample :
    sampleSubmission.isInvitation = true ∧
    sampleSubmission.eventDate = none ∧
    incomingLetterBaseSchemaErrors sampleSubmission = [] ∧
    (createIncomingLetterV2 1 1 "u1" sampleSubmission [] []).1 = 201 ∧
    (createIncomingLetterV2 1 1 "u1" sampleSubmission [] []).2.1.length = 1 := by
  refine ⟨rfl, rfl, by decide, ?_, ?_⟩ <;> decide

/-- Claim C1 (amended): only the first create schema
(`incomingLetterSchema`) enforces the invitation rule. A create
submission it accepts with `isInvitation = true` has a non-null
`eventDate` strictly after `receivedDate`; a submission whose fields are
valid but whose invitation rule fails is rejected with the single issue
path `eventDate`, and the create returns 400 leaving the table unchanged.
The refactored create schema and the update schemas perform no such
check. -/
theorem c1_invitation_rule_amended :
    (∀ (now : Int) (s : LetterSubmission),
      incomingLetterSchemaErrors now s = [] → s.isInvitation = true →
      ∃ e, s.eventDate = some e ∧ s.receivedDate < e) ∧
    (∀ (now : Int) (s : LetterSubmission),
      incomingLetterFieldErrors now s = [] → invitationRefineOk s = false →
      incomingLetterSchemaErrors now s = ["eventDate"] ∧
      ∀ (freshId : Nat) (userId : String) (letters : List IncomingLetter),
        createIncomingLetterV1 now freshId userId s letters = (400, letters)) := by
  constructor
  · intro now s h hinv
    unfold incomingLetterSchemaErrors at h
    by_cases hfe : (incomingLetterFieldErrors now s).isEmpty
    · simp only [hfe, if_true] at h
      by_cases hr : invitationRefineOk s
      · unfold invitationRefineOk at hr
        rcases he : s.eventDate with _ | e
        · rw [he] at hr
          simp [hinv] at hr
        · rw [he] at hr
          simp only [hinv, he, Option.isNone_some, Bool.and_false] at hr
          refine ⟨e, rfl, ?_⟩
          by_cases hlt : s.receivedDate < e
          · exact hlt
          · simp [hlt] at hr
      · simp [hr] at h
    · rw [if_neg hfe] at h
      rw [h] at hfe
      exact absurd rfl hfe
  · intro now s hfe hr
    have herr : incomingLetterSchemaErrors now s = ["eventDate"] := by
      unfold incomingLetterSchemaErrors
      simp [hfe, hr]
    refine ⟨herr, ?_⟩
    intro freshId userId letters
    unfold createIncomingLetterV1
    rw [herr]
    simp [handleErrorStatusIncomingV1]

/-- Claim C1 (witness): the amended theorem applied to the sample
submission. -/
theorem c1_invitation_rule_witness :
    incomingLetterSchemaErrors 1704099600000 sampleSubmission = ["eventDate"] ∧
    createIncomingLetterV1 1704099600000 7 "u1" sampleSubmission [] = (400, []) := by
  have h := c1_invitation_rule_amended.2 1704099600000 sampleSubmission
    (by decide) (by decide)
  exact ⟨h.1, h.2 7 "u1" []⟩

/-!
## Claim C3
-/

/-- Letters selected by the overdue batch satisfy the overdue query. -/
theorem overdueSelected_of_mem_batch {now : Int} {letters : List IncomingLetter}
    {l : IncomingLetter} (h : l ∈ overdueBatch now letters) :
    overdueSelected now l = true := by
  unfold overdueBatch at h
  exact List.of_mem_filter (List.take_subset 20 _ h)

/-- The overdue batch is drawn from the letters table. -/
theorem overdueBatch_subset {now : Int} {letters : List IncomingLetter}
    {l : IncomingLetter} (h : l ∈ overdueBatch now letters) : l ∈ letters := by
  unfold overdueBatch at h
  exact List.mem_of_mem_filter (List.take_subset 20 _ h)

/-- A letter of the post-run table whose id is in the batch has been
stamped. -/
theorem runOverdue_stamps {now : Int} {letters : List IncomingLetter}
    {l : IncomingLetter} (hmem : l ∈ (runOverdueInvitations now letters).1)
    (hid : l.id ∈ (overdueBatch now letters).map (fun b => b.id)) :
    l.overdueNotifiedAt = some now := by
  unfold runOverdueInvitations at hmem
  by_cases hb : (overdueBatch now letters).isEmpty
  · rw [List.isEmpty_iff] at hb
    rw [hb] at hid
    cases hid
  · rw [if_neg hb] at hmem
    simp only at hmem
    rcases List.mem_map.mp hmem with ⟨l0, _, rfl⟩
    by_cases h0 : l0.id ∈ (overdueBatch now letters).map (fun b => b.id)
    · rw [if_pos h0]
    · rw [if_neg h0]
      rw [if_neg h0] at hid
      exact absurd hid h0

/-- Claim C3: one run of the overdue-invitations job selects at most 20
letters, emits exactly one aggregate WARNING notification naming the
batch size when the batch is nonempty (and none otherwise), stamps
`overdueNotifiedAt = now` on every letter of the batch, and no letter of
this batch can be in the batch of any later run over the resulting
table. -/
theorem c3_overdue_cap_stamp_once (now now2 : Int) (letters : List IncomingLetter) :
    (overdueBatch now letters).length ≤ 20 ∧
    (runOverdueInvitations now letters).2 =
      (if (overdueBatch now letters).isEmpty then []
       else [overdueNotification (overdueBatch now letters).length]) ∧
    (∀ l ∈ (runOverdueInvitations now letters).1,
      l.id ∈ (overdueBatch now letters).map (fun b => b.id) →
      l.overdueNotifiedAt = some now) ∧
    (∀ l ∈ overdueBatch now2 (runOverdueInvitations now letters).1,
      l.id ∉ (overdueBatch now letters).map (fun b => b.id)) := by
  refine ⟨?_, ?_, ?_, ?_⟩
  · unfold overdueBatch
    calc ((letters.filter (overdueSelected now)).take 20).length
        = min 20 (letters.filter (overdueSelected now)).length := List.length_take 20 _
      _ ≤ 20 := min_le_left _ _
  · unfold runOverdueInvitations
    by_cases hb : (overdueBatch now letters).isEmpty
    · rw [if_pos hb, if_pos hb]
    · rw [if_neg hb, if_neg hb]
  · intro l hmem hid
    exact runOverdue_stamps hmem hid
  · intro l hmem hid
    have hsel := overdueSelected_of_mem_batch hmem
    have hpost := overdueBatch_subset hmem
    have hstamp := runOverdue_stamps hpost hid
    unfold overdueSelected at hsel
    rw [hstamp] at hsel
    simp at hsel

/-- A letter whose invitation event date has passed without an overdue
notification. -/
def sampleLetterA : IncomingLetter :=
  { id := 1
  , userId := "u1"
  , letterNumber := "001/SK/2024"
  , subject := "Rapat Koordinasi"
  , sender := "Dinas A"
  , recipient := "Dinas B"
  , processor := "Budi"
  , isInvitation := true
  , eventDate := some (-86400000)
  , eventTime := none
  , eventLocation := none
  , eventNotes := none
  , needsFollowUp := false
  , followUpDeadline := none
  , overdueNotifiedAt := none
  , fileName := none
  , filePath := none }

/-- Claim C3 (witness): the theorem applied to a run over one overdue
letter at time zero. -/
theorem c3_overdue_witness :
    (overdueBatch 0 [sampleLetterA]).length ≤ 20 ∧
    ({ sampleLetterA with overdueNotifiedAt := some 0 } : IncomingLetter).overdueNotifiedAt
      = some 0 :=
  ⟨(c3_overdue_cap_stamp_once 0 0 [sampleLetterA]).1,
   (c3_overdue_cap_stamp_once 0 0 [sampleLetterA]).2.2.1
     { sampleLetterA with overdueNotifiedAt := some 0 } (by decide) (by decide)⟩

/-!
## Claims C4 and C5: projector characterization
-/

/-- A list of length at most one containing `a` is `[a]`. -/
theorem eq_singleton_of_mem_of_length_le_one {α : Type} {l : List α} {a : α}
    (h1 : l.length ≤ 1) (ha : a ∈ l) : l = [a] := by
  match l with
  | [] => cases ha
  | [x] => rw [List.mem_singleton.mp ha]
  | x :: y :: t => simp at h1

/-- Rows with equal ids are equal in a table whose ids are distinct. -/
theorem event_id_inj {evs : List CalendarEvent}
    (hids : (evs.map (fun e => e.id)).Nodup) {a b : CalendarEvent}
    (ha : a ∈ evs) (hb : b ∈ evs) (h : a.id = b.id) : a = b :=
  List.inj_on_of_nodup_map hids ha hb h

/-- The overwrite keeps the row's id. -/
theorem overwrite_id (l : IncomingLetter) (e : CalendarEvent) :
    (overwriteCalendarEvent l e).id = e.id := rfl

/-- The overwrite keeps the row's letter reference. -/
theorem overwrite_ref (l : IncomingLetter) (e : CalendarEvent) :
    (overwriteCalendarEvent l e).incomingLetterId = e.incomingLetterId := rfl

/-- Characterization of one projector `sync` (shared backbone of claims
C4 and C5): with distinct event ids and at most one event for the
letter, (a) a non-invitation letter ends with no event; (b) an
invitation with an event date ends with exactly one event carrying the
letter's data and cleared flags; (c) other letters' events survive. -/
theorem sync_spec (freshId : Nat) (l : IncomingLetter) (userId : String)
    (evs : List CalendarEvent)
    (hids : (evs.map (fun e => e.id)).Nodup)
    (hone : (eventsFor l.id evs).length ≤ 1) :
    ((l.isInvitation = false ∨ l.eventDate = none) →
      eventsFor l.id (updateCalendarEventFromLetter freshId l userId evs) = []) ∧
    (∀ d : Int, l.isInvitation = true → l.eventDate = some d →
      ∃ ev, eventsFor l.id (updateCalendarEventFromLetter freshId l userId evs) = [ev] ∧
        ev.title = l.subject ∧ ev.description = eventDescription l ∧
        ev.date = d ∧ ev.time = jsOrNull l.eventTime ∧
        ev.location = jsOrNull l.eventLocation ∧
        ev.notified3Days = false ∧ ev.notified1Day = false) ∧
    (∀ e ∈ evs, e.incomingLetterId ≠ some l.id →
      e ∈ updateCalendarEventFromLetter freshId l userId evs) := by
  refine ⟨?_, ?_, ?_⟩
  · intro hcase
    unfold updateCalendarEventFromLetter
    rw [if_pos hcase]
    unfold deleteCalendarEventByLetterId
    rcases hf : evs.find? (fun e => e.incomingLetterId = some l.id) with _ | e0
    · simp only [hf]
      unfold eventsFor
      rw [List.filter_eq_nil_iff]
      intro a ha
      have := List.find?_eq_none.mp hf a ha
      simpa using this
    · simp only [hf]
      have he0mem : e0 ∈ evs := List.mem_of_find?_eq_some hf
      have he0p : e0.incomingLetterId = some l.id := by
        have := List.find?_some hf
        simpa using this
      unfold eventsFor
      rw [List.filter_eq_nil_iff]
      intro a ha
      intro hap
      have hamem : a ∈ evs := List.mem_of_mem_filter ha
      have haid : a.id ≠ e0.id := by
        have := List.of_mem_filter ha
        simpa using this
      have haF : a ∈ eventsFor l.id evs := by
        unfold eventsFor
        refine List.mem_filter.mpr ⟨hamem, ?_⟩
        simpa using hap
      have heF : e0 ∈ eventsFor l.id evs := by
        unfold eventsFor
        refine List.mem_filter.mpr ⟨he0mem, ?_⟩
        simpa using he0p
      have : a = e0 := mem_eq_of_length_le_one hone haF heF
      exact haid (by rw [this])
  · intro d hinv hdate
    have hcase : ¬(l.isInvitation = false ∨ l.eventDate = none) := by
      rw [hinv, hdate]
      simp
    unfold updateCalendarEventFromLetter
    rw [if_neg hcase]
    rcases hf : evs.find? (fun e => e.incomingLetterId = some l.id) with _ | e0
    · simp only [hf]
      unfold createCalendarEventFromLetter
      rw [if_neg hcase]
      refine ⟨newCalendarEvent freshId l userId, ?_, rfl, rfl, ?_, rfl, rfl, rfl, rfl⟩
      · unfold eventsFor
        rw [List.filter_append]
        have h1 : evs.filter (fun e => e.incomingLetterId = some l.id) = [] := by
          rw [List.filter_eq_nil_iff]
          intro a ha
          have := List.find?_eq_none.mp hf a ha
          simpa using this
        rw [h1]
        simp [newCalendarEvent]
      · unfold newCalendarEvent
        rw [hdate]
        rfl
    · simp only [hf]
      have he0mem : e0 ∈ evs := List.mem_of_find?_eq_some hf
      have he0p : e0.incomingLetterId = some l.id := by
        have := List.find?_some hf
        simpa using this
      have heF : e0 ∈ eventsFor l.id evs := by
        unfold eventsFor
        refine List.mem_filter.mpr ⟨he0mem, ?_⟩
        simpa using he0p
      have hsingle : eventsFor l.id evs = [e0] :=
        eq_singleton_of_mem_of_length_le_one hone heF
      refine ⟨overwriteCalendarEvent l e0, ?_, rfl, rfl, ?_, rfl, rfl, rfl, rfl⟩
      · unfold eventsFor
        rw [List.filter_map]
        have hfc : evs.filter
            ((fun e => decide (e.incomingLetterId = some l.id)) ∘
              (fun x => if x.id = e0.id then overwriteCalendarEvent l x else x)) =
            evs.filter (fun e => decide (e.incomingLetterId = some l.id)) := by
          apply List.filter_congr
          intro x hx
          by_cases hxid : x.id = e0.id
          · have hxe : x = e0 := event_id_inj hids hx he0mem hxid
            subst hxe
            simp [overwrite_ref]
          · simp only [Function.comp_apply, if_neg hxid]
        rw [hfc]
        have h2 : evs.filter (fun e => decide (e.incomingLetterId = some l.id)) = [e0] := by
          simpa [eventsFor] using hsingle
        rw [h2]
        simp
      · unfold overwriteCalendarEvent
        rw [hdate]
        rfl
  · intro e hmem hne
    unfold updateCalendarEventFromLetter
    by_cases hcase : l.isInvitation = false ∨ l.eventDate = none
    · rw [if_pos hcase]
      unfold deleteCalendarEventByLetterId
      rcases hf : evs.find? (fun x => x.incomingLetterId = some l.id) with _ | e0
      · simp only [hf]
        exact hmem
      · simp only [hf]
        have he0mem : e0 ∈ evs := List.mem_of_find?_eq_some hf
        have he0p : e0.incomingLetterId = some l.id := by
          have := List.find?_some hf
          simpa using this
        refine List.mem_filter.mpr ⟨hmem, ?_⟩
        simp only [ne_eq, decide_not, Bool.not_eq_true', decide_eq_false_iff_not]
        intro hid
        have : e = e0 := event_id_inj hids hmem he0mem hid
        rw [this] at hne
        exact hne he0p
    · rw [if_neg hcase]
      rcases hf : evs.find? (fun x => x.incomingLetterId = some l.id) with _ | e0
      · simp only [hf]
        unfold createCalendarEventFromLetter
        rw [if_neg hcase]
        exact List.mem_append_left _ hmem
      · simp only [hf]
        have he0mem : e0 ∈ evs := List.mem_of_find?_eq_some hf
        have he0p : e0.incomingLetterId = some l.id := by
          have := List.find?_some hf
          simpa using this
        refine List.mem_map.mpr ⟨e, hmem, ?_⟩
        have hid : e.id ≠ e0.id := by
          intro hid
          have : e = e0 := event_id_inj hids hmem he0mem hid
          rw [this] at hne
          exact hne he0p
        rw [if_neg hid]

/-- Claim C4: after one projector sync for a letter (with distinct event
ids and at most one event per letter beforehand): a letter that is not an
invitation or lacks an event date is left with no CalendarEvent; an
invitation with an event date is left with exactly one CalendarEvent
whose title/description/date/time/location come from the letter and
whose notification flags are both false (freshly created rows take the
column default `false`, overwritten rows are reset); events of other
letters are untouched. -/
theorem c4_projector_sync_state (freshId : Nat) (l : IncomingLetter) (userId : String)
    (evs : List CalendarEvent)
    (hids : (evs.map (fun e => e.id)).Nodup)
    (hone : (eventsFor l.id evs).length ≤ 1) :
    ((l.isInvitation = false ∨ l.eventDate = none) →
      eventsFor l.id (updateCalendarEventFromLetter freshId l userId evs) = []) ∧
    (∀ d : Int, l.isInvitation = true → l.eventDate = some d →
      ∃ ev, eventsFor l.id (updateCalendarEventFromLetter freshId l userId evs) = [ev] ∧
        ev.title = l.subject ∧ ev.description = eventDescription l ∧
        ev.date = d ∧ ev.time = jsOrNull l.eventTime ∧
        ev.location = jsOrNull l.eventLocation ∧
        ev.notified3Days = false ∧ ev.notified1Day = false) ∧
    (∀ e ∈ evs, e.incomingLetterId ≠ some l.id →
      e ∈ updateCalendarEventFromLetter freshId l userId evs) :=
  sync_spec freshId l userId evs hids hone

/-- An invitation letter with an event date one day after the epoch. -/
def sampleLetterB : IncomingLetter :=
  { sampleLetterA with id := 2, eventDate := some 86400000 }

/-- Claim C4 (witness): syncing an invitation letter against an empty
events table leaves exactly one event with the letter's data and cleared
flags. -/
theorem c4_projector_sync_witness :
    ∃ ev, eventsFor sampleLetterB.id (updateCalendarEventFromLetter 9 sampleLetterB "u1" [])
        = [ev] ∧
      ev.title = sampleLetterB.subject ∧ ev.description = eventDescription sampleLetterB ∧
      ev.date = 86400000 ∧ ev.time = jsOrNull sampleLetterB.eventTime ∧
      ev.location = jsOrNull sampleLetterB.eventLocation ∧
      ev.notified3Days = false ∧ ev.notified1Day = false :=
  (c4_projector_sync_state 9 sampleLetterB "u1" [] (by decide) (by decide)).2.1
    86400000 rfl rfl

/-- One projector sync keeps event ids distinct when the id used for a
possible insert is fresh. -/
theorem sync_preserves_ids (freshId : Nat) (l : IncomingLetter) (userId : String)
    (evs : List CalendarEvent)
    (hids : (evs.map (fun e => e.id)).Nodup)
    (hfresh : freshId ∉ evs.map (fun e => e.id)) :
    ((updateCalendarEventFromLetter freshId l userId evs).map (fun e => e.id)).Nodup := by
  unfold updateCalendarEventFromLetter
  by_cases hcase : l.isInvitation = false ∨ l.eventDate = none
  · rw [if_pos hcase]
    unfold deleteCalendarEventByLetterId
    rcases hf : evs.find? (fun e => e.incomingLetterId = some l.id) with _ | e0
    · simpa only [hf] using hids
    · simp only [hf]
      exact hids.sublist (List.Sublist.map _ (List.filter_sublist _))
  · rw [if_neg hcase]
    rcases hf : evs.find? (fun e => e.incomingLetterId = some l.id) with _ | e0
    · simp only [hf]
      unfold createCalendarEventFromLetter
      rw [if_neg hcase]
      rw [List.map_append]
      rw [List.nodup_append]
      refine ⟨hids, List.nodup_singleton _, ?_⟩
      intro a ha hb
      have : a = freshId := by simpa [newCalendarEvent] using hb
      rw [this] at ha
      exact hfresh ha
    · simp only [hf]
      have hmm : (List.map (fun x => if x.id = e0.id then overwriteCalendarEvent l x else x)
          evs).map (fun e => e.id) = evs.map (fun e => e.id) := by
        rw [List.map_map]
        apply List.map_congr_left
        intro x hx
        by_cases hxid : x.id = e0.id
        · simp only [Function.comp_apply, if_pos hxid, overwrite_id]
        · simp only [Function.comp_apply, if_neg hxid]
      rw [hmm]
      exact hids

/-- Claim C5: syncing the projector twice in succession with the same
invitation data leaves exactly one CalendarEvent row for the letter, and
its date, location and title are the same after the second call as after
the first. -/
theorem c5_sync_idempotent_rows (fid1 fid2 : Nat) (l : IncomingLetter) (u1 u2 : String)
    (evs : List CalendarEvent) (d : Int)
    (hids : (evs.map (fun e => e.id)).Nodup)
    (hone : (eventsFor l.id evs).length ≤ 1)
    (hfresh : fid1 ∉ evs.map (fun e => e.id))
    (hinv : l.isInvitation = true) (hdate : l.eventDate = some d) :
    ∃ ev1 ev2,
      eventsFor l.id (updateCalendarEventFromLetter fid1 l u1 evs) = [ev1] ∧
      eventsFor l.id (updateCalendarEventFromLetter fid2 l u2
        (updateCalendarEventFromLetter fid1 l u1 evs)) = [ev2] ∧
      ev2.date = ev1.date ∧ ev2.location = ev1.location ∧ ev2.title = ev1.title := by
  obtain ⟨ev1, h1, ht1, hdesc1, hd1, htm1, hl1, hf1, hg1⟩ :=
    (sync_spec fid1 l u1 evs hids hone).2.1 d hinv hdate
  have hids2 := sync_preserves_ids fid1 l u1 evs hids hfresh
  have hone2 : (eventsFor l.id (updateCalendarEventFromLetter fid1 l u1 evs)).length ≤ 1 := by
    rw [h1]
    simp
  obtain ⟨ev2, h2, ht2, hdesc2, hd2, htm2, hl2, hf2, hg2⟩ :=
    (sync_spec fid2 l u2 _ hids2 hone2).2.1 d hinv hdate
  refine ⟨ev1, ev2, h1, h2, ?_, ?_, ?_⟩
  · rw [hd1, hd2]
  · rw [hl1, hl2]
  · rw [ht1, ht2]

/-- Claim C5 (witness): the idempotence theorem applied to an invitation
letter and an empty events table. -/
theorem c5_sync_idempotent_witness :
    ∃ ev1 ev2,
      eventsFor sampleLetterB.id (updateCalendarEventFromLetter 1 sampleLetterB "u1" [])
        = [ev1] ∧
      eventsFor sampleLetterB.id (updateCalendarEventFromLetter 2 sampleLetterB "u2"
        (updateCalendarEventFromLetter 1 sampleLetterB "u1" [])) = [ev2] ∧
      ev2.date = ev1.date ∧ ev2.location = ev1.location ∧ ev2.title = ev1.title :=
  c5_sync_idempotent_rows 1 2 sampleLetterB "u1" "u2" [] 86400000
    (by decide) (by decide) (by decide) rfl rfl

/-!
## Claim C6
-/

/-- After the foreign key's SET NULL, no event references the letter. -/
theorem fkSetNull_clears (letterId : Nat) (evs : List CalendarEvent) :
    ∀ e ∈ fkSetNullEvents letterId evs, e.incomingLetterId ≠ some letterId := by
  intro e he
  unfold fkSetNullEvents at he
  rcases List.mem_map.mp he with ⟨e0, _, rfl⟩
  by_cases h : e0.incomingLetterId = some letterId
  · rw [if_pos h]
    simp
  · rw [if_neg h]
    exact h

/-- The calendar event derived from `sampleLetterB`. -/
def sampleEventB : CalendarEvent :=
  { id := 5
  , title := "Rapat Koordinasi"
  , description := "Surat Masuk: 001/SK/2024\n"
  , date := 86400000
  , time := none
  , location := none
  , etype := EventType.MEETING
  , notified3Days := false
  , notified1Day := false
  , incomingLetterId := some 2
  , userId := "u1" }

/-- A disposition routed from `sampleLetterB`. -/
def sampleDisposition : Disposition :=
  { id := 3
  , incomingLetterId := 2
  , dispositionTo := DispositionType.UMPEG
  , notes := none
  , createdById := some "u1" }

/-- A store holding one invitation letter, its derived event and one
disposition. -/
def sampleStore : Store :=
  { letters := [sampleLetterB]
  , events := [sampleEventB]
  , dispositions := [sampleDisposition]
  , fsys := [] }

/-- Claim C6 (counterexample): the claim says every successful letter
delete also removes the letter's derived CalendarEvent. The first delete
implementation returns 204 and removes the letter and its dispositions,
but the CalendarEvent row survives (the foreign key only nulls its
letter reference), so the derived event is not removed. -/
theorem c6_delete_counterexample :
    (deleteIncomingLetterV1 "u1" Role.STAFF 2 sampleStore).1 = 204 ∧
    (deleteIncomingLetterV1 "u1" Role.STAFF 2 sampleStore).2.letters = [] ∧
    (deleteIncomingLetterV1 "u1" Role.STAFF 2 sampleStore).2.dispositions = [] ∧
    (deleteIncomingLetterV1 "u1" Role.STAFF 2 sampleStore).2.events =
      [{ sampleEventB with incomingLetterId := none }] := by
  refine ⟨?_, ?_, ?_, ?_⟩ <;> decide

/-- Claim C6 (amended): a successful delete through the refactored
controller removes the letter, its derived CalendarEvent and all its
Disposition rows; through the first controller version it removes the
letter and the Dispositions but leaves every CalendarEvent row in place,
only detaching it (its letter reference is nulled by the foreign key).
In both versions no remaining row references the deleted letter. -/
theorem c6_delete_cascade_amended (actorId : String) (actorRole : Role) (id : Nat)
    (st : Store) (ex : IncomingLetter)
    (hfound : st.letters.find? (fun l => l.id = id) = some ex)
    (hauth : ¬(ex.userId ≠ actorId ∧ actorRole ≠ Role.ADMIN)) :
    ((deleteIncomingLetterV2 actorId actorRole id st).1 = 204 ∧
     eventsFor id (deleteIncomingLetterV2 actorId actorRole id st).2.events = [] ∧
     (∀ d ∈ (deleteIncomingLetterV2 actorId actorRole id st).2.dispositions,
        d.incomingLetterId ≠ id) ∧
     (∀ l ∈ (deleteIncomingLetterV2 actorId actorRole id st).2.letters, l.id ≠ id)) ∧
    ((deleteIncomingLetterV1 actorId actorRole id st).1 = 204 ∧
     (deleteIncomingLetterV1 actorId actorRole id st).2.events.length = st.events.length ∧
     (∀ e ∈ (deleteIncomingLetterV1 actorId actorRole id st).2.events,
        e.incomingLetterId ≠ some id) ∧
     (∀ d ∈ (deleteIncomingLetterV1 actorId actorRole id st).2.dispositions,
        d.incomingLetterId ≠ id) ∧
     (∀ l ∈ (deleteIncomingLetterV1 actorId actorRole id st).2.letters, l.id ≠ id)) := by
  constructor
  · unfold deleteIncomingLetterV2
    simp only [hfound]
    rw [if_neg hauth]
    refine ⟨rfl, ?_, ?_, ?_⟩
    · unfold eventsFor
      rw [List.filter_eq_nil_iff]
      intro e he hp
      exact fkSetNull_clears id _ e he (by simpa using hp)
    · intro d hd
      have := List.of_mem_filter hd
      simpa using this
    · intro l hl
      have := List.of_mem_filter hl
      simpa using this
  · unfold deleteIncomingLetterV1
    simp only [hfound]
    rw [if_neg hauth]
    refine ⟨rfl, ?_, ?_, ?_, ?_⟩
    · unfold fkSetNullEvents
      exact List.length_map _ _
    · exact fkSetNull_clears id st.events
    · intro d hd
      have := List.of_mem_filter hd
      simpa using this
    · intro l hl
      have := List.of_mem_filter hl
      simpa using this

/-- Claim C6 (witness): the amended theorem applied to the sample store,
deleted by the owning user. -/
theorem c6_delete_cascade_witness :
    (deleteIncomingLetterV2 "u1" Role.STAFF 2 sampleStore).1 = 204 ∧
    eventsFor 2 (deleteIncomingLetterV2 "u1" Role.STAFF 2 sampleStore).2.events = [] := by
  have h := c6_delete_cascade_amended "u1" Role.STAFF 2 sampleStore sampleLetterB
    (by decide) (by decide)
  exact ⟨h.1.1, h.1.2.1⟩

/-!
## Claim C7
-/

/-- The controllers' negative ownership test is exactly the complement of
the spec's authorization predicate. -/
theorem auth_char (actorId ownerId : String) (actorRole : Role) :
    ¬(ownerId ≠ actorId ∧ actorRole ≠ Role.ADMIN) ↔
      specAuthorized actorId actorRole ownerId := by
  unfold specAuthorized
  constructor
  · intro h
    rcases not_and_or.mp h with h1 | h2
    · left
      exact (not_not.mp h1).symm
    · right
      exact not_not.mp h2
  · rintro (h | h) ⟨h1, h2⟩
    · exact h1 h.symm
    · exact h2 h

/-- A stored outgoing letter. -/
def sampleOutgoing : OutgoingLetter :=
  { id := 2
  , userId := "u1"
  , letterNumber := "100/OUT/2024"
  , subject := "Balasan"
  , filePath := none }

/-- Claim C7: for the refactored incoming update, the refactored
incoming delete and the outgoing update, given that the letter exists,
the operation proceeds if and only if the actor is the letter's owner or
an ADMIN; otherwise it returns 403 with every table unchanged. -/
theorem c7_owner_or_admin (actorId : String) (actorRole : Role) (id : Nat)
    (p : LetterPatch) (freshEventId : Nat)
    (letters : List IncomingLetter) (evs : List CalendarEvent)
    (st : Store) (op : OutgoingPatch) (olist : List OutgoingLetter)
    (ex exDel : IncomingLetter) (exOut : OutgoingLetter)
    (hfound : letters.find? (fun l => l.id = id) = some ex)
    (hfoundDel : st.letters.find? (fun l => l.id = id) = some exDel)
    (hfoundOut : olist.find? (fun l => l.id = id) = some exOut) :
    ((specAuthorized actorId actorRole ex.userId →
        (updateIncomingLetterV2 actorId actorRole id p freshEventId letters evs).1 = 200) ∧
     (¬specAuthorized actorId actorRole ex.userId →
        updateIncomingLetterV2 actorId actorRole id p freshEventId letters evs =
          (403, letters, evs))) ∧
    ((specAuthorized actorId actorRole exDel.userId →
        (deleteIncomingLetterV2 actorId actorRole id st).1 = 204) ∧
     (¬specAuthorized actorId actorRole exDel.userId →
        deleteIncomingLetterV2 actorId actorRole id st = (403, st))) ∧
    ((specAuthorized actorId actorRole exOut.userId →
        (updateOutgoingLetter actorId actorRole id op olist).1 = 200) ∧
     (¬specAuthorized actorId actorRole exOut.userId →
        updateOutgoingLetter actorId actorRole id op olist = (403, olist))) := by
  refine ⟨⟨?_, ?_⟩, ⟨?_, ?_⟩, ⟨?_, ?_⟩⟩
  · intro hok
    unfold updateIncomingLetterV2
    simp only [hfound]
    rw [if_neg ((auth_char actorId ex.userId actorRole).mpr hok)]
  · intro hno
    unfold updateIncomingLetterV2
    simp only [hfound]
    rw [if_pos (by
      by_contra hc
      exact hno ((auth_char actorId ex.userId actorRole).mp hc))]
    rfl
  · intro hok
    unfold deleteIncomingLetterV2
    simp only [hfoundDel]
    rw [if_neg ((auth_char actorId exDel.userId actorRole).mpr hok)]
  · intro hno
    unfold deleteIncomingLetterV2
    simp only [hfoundDel]
    rw [if_pos (by
      by_contra hc
      exact hno ((auth_char actorId exDel.userId actorRole).mp hc))]
    rfl
  · intro hok
    unfold updateOutgoingLetter
    simp only [hfoundOut]
    rw [if_neg ((auth_char actorId exOut.userId actorRole).mpr hok)]
  · intro hno
    unfold updateOutgoingLetter
    simp only [hfoundOut]
    rw [if_pos (by
      by_contra hc
      exact hno ((auth_char actorId exOut.userId actorRole).mp hc))]

/-- A patch that changes nothing. -/
def emptyPatch : LetterPatch :=
  { letterNumber := none
  , letterDate := none
  , letterNature := none
  , subject := none
  , sender := none
  , recipient := none
  , processor := none
  , note := none
  , receivedDate := none
  , isInvitation := none
  , eventDate := none
  , eventTime := none
  , eventLocation := none
  , eventNotes := none
  , needsFollowUp := none
  , followUpDeadline := none }

/-- Claim C7 (witness): a STAFF user who does not own the letters is
rejected with 403 by all three operations, and the owner's update
proceeds. -/
theorem c7_owner_or_admin_witness :
    updateIncomingLetterV2 "intruder" Role.STAFF 2 emptyPatch 9 [sampleLetterB] [] =
      (403, [sampleLetterB], []) ∧
    deleteIncomingLetterV2 "intruder" Role.STAFF 2 sampleStore = (403, sampleStore) ∧
    updateOutgoingLetter "intruder" Role.STAFF 2 { letterNumber := none, subject := none }
      [sampleOutgoing] = (403, [sampleOutgoing]) ∧
    (updateIncomingLetterV2 "u1" Role.STAFF 2 emptyPatch 9 [sampleLetterB] []).1 = 200 := by
  have h := c7_owner_or_admin "intruder" Role.STAFF 2 emptyPatch 9 [sampleLetterB] []
    sampleStore { letterNumber := none, subject := none } [sampleOutgoing]
    sampleLetterB sampleLetterB sampleOutgoing (by decide) (by decide) ?_
  · have h4 := c7_owner_or_admin "u1" Role.STAFF 2 emptyPatch 9 [sampleLetterB] []
      sampleStore { letterNumber := none, subject := none } [sampleOutgoing]
      sampleLetterB sampleLetterB sampleOutgoing (by decide) (by decide) ?_
    · refine ⟨h.1.2 ?_, h.2.1.2 ?_, ?_, h4.1.1 ?_⟩
      · intro hc
        rcases hc with hc | hc
        · exact absurd hc (by decide)
        · exact absurd hc (by decide)
      · intro hc
        rcases hc with hc | hc
        · exact absurd hc (by decide)
        · exact absurd hc (by decide)
      · have hne : ¬ specAuthorized "intruder" Role.STAFF sampleOutgoing.userId := by
          intro hc
          rcases hc with hc | hc
          · exact absurd hc (by decide)
          · exact absurd hc (by decide)
        exact h.2.2.2 hne
      · left
        rfl
    · decide
  · decide

/-!
## Claim C8
-/

/-- The sample submission without the invitation flag: a fully valid
body for both create schemas. -/
def sampleSubmission2 : LetterSubmission :=
  { sampleSubmission with isInvitation := false }

/-- Claim C8 (counterexample): the claim says the second create with a
duplicate letterNumber fails with HTTP 409. In the first incoming
controller version the duplicate-key error (P2002) is mapped to 400, not
409 — though no second row is stored. -/
theorem c8_duplicate_counterexample :
    (createIncomingLetterV1 1704099600000 1 "u1" sampleSubmission2 []).1 = 201 ∧
    (createIncomingLetterV1 1704099600000 2 "u2" sampleSubmission2
      (createIncomingLetterV1 1704099600000 1 "u1" sampleSubmission2 []).2).1 = 400 ∧
    (createIncomingLetterV1 1704099600000 2 "u2" sampleSubmission2
      (createIncomingLetterV1 1704099600000 1 "u1" sampleSubmission2 []).2).2.length
      = 1 := by
  refine ⟨?_, ?_, ?_⟩ <;> decide

/-- Claim C8 (amended): a create whose letterNumber duplicates an
existing letter of the same direction stores no second row; the
refactored incoming controller and the outgoing controller answer 409
Conflict, while the first incoming controller version answers 400 for
the same duplicate-key error. -/
theorem c8_duplicate_conflict_amended (now : Int) (freshId freshEventId : Nat)
    (userId : String) (s : LetterSubmission)
    (letters : List IncomingLetter) (evs : List CalendarEvent)
    (olist : List OutgoingLetter) (oFreshId : Nat) (oUser oNum oSubj : String)
    (hdup : duplicateLetterNumber s.letterNumber letters = true)
    (hodup : olist.any (fun l => l.letterNumber = oNum) = true)
    (hv1 : (incomingLetterSchemaErrors now s).isEmpty = true)
    (hv2 : (incomingLetterBaseSchemaErrors s).isEmpty = true) :
    createIncomingLetterV2 freshId freshEventId userId s letters evs =
      (409, letters, evs) ∧
    createIncomingLetterV1 now freshId userId s letters = (400, letters) ∧
    createOutgoingLetter oFreshId oUser oNum oSubj olist = (409, olist) := by
  refine ⟨?_, ?_, ?_⟩
  · unfold createIncomingLetterV2
    rw [hv2]
    rw [if_neg (by simp)]
    rw [if_pos hdup]
    rfl
  · unfold createIncomingLetterV1
    rw [hv1]
    rw [if_neg (by simp)]
    rw [if_pos hdup]
    rfl
  · unfold createOutgoingLetter
    rw [if_pos hodup]
    rfl

/-- Claim C8 (witness): the amended theorem applied to a second create
that reuses the stored letter number. -/
theorem c8_duplicate_conflict_witness :
    createIncomingLetterV2 7 8 "u2" sampleSubmission2
      [letterFromSubmission 1 "u1" sampleSubmission2 none] [] =
      (409, [letterFromSubmission 1 "u1" sampleSubmission2 none], []) ∧
    createIncomingLetterV1 1704099600000 7 "u2" sampleSubmission2
      [letterFromSubmission 1 "u1" sampleSubmission2 none] =
      (400, [letterFromSubmission 1 "u1" sampleSubmission2 none]) ∧
    createOutgoingLetter 7 "u2" "100/OUT/2024" "Balasan" [sampleOutgoing] =
      (409, [sampleOutgoing]) :=
  c8_duplicate_conflict_amended 1704099600000 7 8 "u2" sampleSubmission2
    [letterFromSubmission 1 "u1" sampleSubmission2 none] [] [sampleOutgoing]
    7 "u2" "100/OUT/2024" "Balasan" (by decide) (by decide) (by decide) (by decide)

/-!
## Claim C9
-/

/-- Claim C9 (counterexample): the claim says the previously stored file
is deleted only after the database update commits. In the code the old
file is deleted before the database update is attempted: when the update
then fails, the old file is already gone (and the new one is cleaned
up), so the upload directory ends empty. -/
theorem c9_file_replacement_counterexample :
    updateFileTrace (some "old.pdf") "new.pdf" false =
      [FileEvent.deleteOldFile "old.pdf", FileEvent.dbUpdate false,
        FileEvent.cleanupNewFile "new.pdf"] ∧
    runFileEvents ["old.pdf", "new.pdf"]
      (updateFileTrace (some "old.pdf") "new.pdf" false) = [] := by
  exact ⟨by decide, by decide⟩

/-- Claim C9 (amended): on an update carrying a new attachment, the old
stored file is deleted before the database update is attempted (first
event of the trace); if the database write fails the newly uploaded file
is removed as well, so the old file is gone in every outcome and the new
file remains exactly when the write succeeded. -/
theorem c9_file_replacement_amended (oldPath newPath : String) (dbOk : Bool)
    (fsys : List String) (hnodup : fsys.Nodup)
    (_hold : oldPath ∈ fsys) (hnew : newPath ∈ fsys) (hne : oldPath ≠ newPath) :
    updateFileTrace (some oldPath) newPath dbOk =
      FileEvent.deleteOldFile oldPath :: FileEvent.dbUpdate dbOk ::
        (if dbOk then [] else [FileEvent.cleanupNewFile newPath]) ∧
    oldPath ∉ runFileEvents fsys (updateFileTrace (some oldPath) newPath dbOk) ∧
    (dbOk = false →
      newPath ∉ runFileEvents fsys (updateFileTrace (some oldPath) newPath dbOk)) ∧
    (dbOk = true →
      newPath ∈ runFileEvents fsys (updateFileTrace (some oldPath) newPath dbOk)) := by
  have herase : (fsys.erase oldPath).Nodup := hnodup.erase oldPath
  cases dbOk
  · refine ⟨rfl, ?_, ?_, ?_⟩
    · have hrun : runFileEvents fsys (updateFileTrace (some oldPath) newPath false) =
          (fsys.erase oldPath).erase newPath := rfl
      rw [hrun]
      intro hmemo
      have h1 := (herase.mem_erase_iff.mp hmemo).2
      have h2 := (hnodup.mem_erase_iff.mp h1).1
      exact h2 rfl
    · intro _
      have hrun : runFileEvents fsys (updateFileTrace (some oldPath) newPath false) =
          (fsys.erase oldPath).erase newPath := rfl
      rw [hrun]
      intro hmemn
      exact (herase.mem_erase_iff.mp hmemn).1 rfl
    · intro hc
      cases hc
  · refine ⟨rfl, ?_, ?_, ?_⟩
    · have hrun : runFileEvents fsys (updateFileTrace (some oldPath) newPath true) =
          fsys.erase oldPath := rfl
      rw [hrun]
      intro hmemo
      exact (hnodup.mem_erase_iff.mp hmemo).1 rfl
    · intro hc
      cases hc
    · intro _
      have hrun : runFileEvents fsys (updateFileTrace (some oldPath) newPath true) =
          fsys.erase oldPath := rfl
      rw [hrun]
      exact hnodup.mem_erase_iff.mpr ⟨fun h => hne h.symm, hnew⟩

/-- Claim C9 (witness): the amended theorem applied to a directory
holding the old and the new file, with a successful database write. -/
theorem c9_file_replacement_witness :
    "old.pdf" ∉ runFileEvents ["old.pdf", "new.pdf"]
      (updateFileTrace (some "old.pdf") "new.pdf" true) ∧
    "new.pdf" ∈ runFileEvents ["old.pdf", "new.pdf"]
      (updateFileTrace (some "old.pdf") "new.pdf" true) :=
  ⟨(c9_file_replacement_amended "old.pdf" "new.pdf" true ["old.pdf", "new.pdf"]
      (by decide) (by decide) (by decide) (by decide)).2.1,
   (c9_file_replacement_amended "old.pdf" "new.pdf" true ["old.pdf", "new.pdf"]
      (by decide) (by decide) (by decide) (by decide)).2.2.2 rfl⟩

/-!
## Claim C10
-/

/-- Claim C10: creating a disposition needs only authentication and the
letter's existence: with a valid body, any actor of any role gets 201
and the row is inserted whenever the letter exists, 404 exactly when it
does not; neither disposition-create endpoint can answer 403, with or
without a valid body. -/
theorem c10_disposition_no_ownership (actorId : String) (actorRole : Role)
    (letterId : Nat) (d : DispositionSubmission) (freshId : Nat)
    (letters : List IncomingLetter) (ds : List Disposition)
    (hvalid : (dispositionSchemaErrors d).isEmpty = true) :
    ((createDispositionForLetter actorId actorRole letterId d freshId letters ds).1 = 404 ↔
      letters.find? (fun l => l.id = letterId) = none) ∧
    (∀ ex, letters.find? (fun l => l.id = letterId) = some ex →
      createDispositionForLetter actorId actorRole letterId d freshId letters ds =
        (201, ds ++ [{ id := freshId, incomingLetterId := letterId,
                       dispositionTo := d.dispositionTo, notes := d.notes,
                       createdById := some actorId }])) ∧
    (∀ (d2 : DispositionSubmission),
      (createDispositionForLetter actorId actorRole letterId d2 freshId letters ds).1
        ≠ 403 ∧
      (createDisposition actorId actorRole letterId d2 freshId letters ds).1 ≠ 403) ∧
    ((createDisposition actorId actorRole letterId d freshId letters ds).1 = 404 ↔
      letters.find? (fun l => l.id = letterId) = none) := by
  refine ⟨?_, ?_, ?_, ?_⟩
  · unfold createDispositionForLetter
    rw [hvalid]
    rw [if_neg (by simp)]
    rcases hf : letters.find? (fun l => l.id = letterId) with _ | ex
    · simp only [hf]
    · simp only [hf]
      constructor
      · intro h
        cases h
      · intro h
        cases h
  · intro ex hf
    unfold createDispositionForLetter
    rw [hvalid]
    rw [if_neg (by simp)]
    simp only [hf]
  · intro d2
    constructor
    · unfold createDispositionForLetter
      by_cases hv : (dispositionSchemaErrors d2).isEmpty = false
      · rw [if_pos hv]
        intro h
        cases h
      · rw [if_neg hv]
        rcases hf : letters.find? (fun l => l.id = letterId) with _ | ex
        · simp only [hf]
          intro h
          cases h
        · simp only [hf]
          intro h
          cases h
    · unfold createDisposition
      by_cases hv : (dispositionSchemaErrors d2).isEmpty = false
      · rw [if_pos hv]
        intro h
        cases h
      · rw [if_neg hv]
        rcases hf : letters.find? (fun l => l.id = letterId) with _ | ex
        · simp only [hf]
          intro h
          cases h
        · simp only [hf]
          intro h
          cases h
  · unfold createDisposition
    rw [hvalid]
    rw [if_neg (by simp)]
    rcases hf : letters.find? (fun l => l.id = letterId) with _ | ex
    · simp only [hf]
    · simp only [hf]
      constructor
      · intro h
        cases h
      · intro h
        cases h

/-- Claim C10 (witness): a STAFF actor who does not own the letter still
gets 201 on an existing letter, and 404 exactly characterizes the
missing letter. -/
theorem c10_disposition_no_ownership_witness :
    createDispositionForLetter "notowner" Role.STAFF 2
      { dispositionTo := DispositionType.KABID, notes := none } 3 [sampleLetterB] [] =
      (201, [{ id := 3, incomingLetterId := 2,
               dispositionTo := DispositionType.KABID, notes := none,
               createdById := some "notowner" }]) ∧
    ((createDispositionForLetter "notowner" Role.STAFF 99
      { dispositionTo := DispositionType.KABID, notes := none } 3 [sampleLetterB] []).1
      = 404 ↔ List.find? (fun l => l.id = 99) [sampleLetterB] = none) := by
  constructor
  · exact (c10_disposition_no_ownership "notowner" Role.STAFF 2
      { dispositionTo := DispositionType.KABID, notes := none } 3 [sampleLetterB] []
      (by decide)).2.1 sampleLetterB (by decide)
  · exact (c10_disposition_no_ownership "notowner" Role.STAFF 99
      { dispositionTo := DispositionType.KABID, notes := none } 3 [sampleLetterB] []
      (by decide)).1

/-!
## Claim C2: upcoming-event job
-/

/-- The flag a threshold reads and sets. -/
def flagFor : Threshold → CalendarEvent → Bool
  | Threshold.threeDays, e => e.notified3Days
  | Threshold.oneDay, e => e.notified1Day

/-- The day distance each threshold fires at. -/
def thresholdDays : Threshold → Int
  | Threshold.threeDays => 3
  | Threshold.oneDay => 1

/-- Closed form of the loop body's emissions: the 3-day reminder when due
and unsent, then the 1-day reminder when due and unsent. -/
theorem process_snd (now : Int) (e : CalendarEvent) :
    (processUpcomingEvent now e).2 =
      (if daysUntilEvent now e.date = 3 ∧ e.notified3Days = false
        then [(Threshold.threeDays, upcoming3Notification e)] else []) ++
      (if daysUntilEvent now e.date = 1 ∧ e.notified1Day = false
        then [(Threshold.oneDay, upcoming1Notification e)] else []) := by
  unfold processUpcomingEvent
  by_cases h3 : daysUntilEvent now e.date = 3 ∧ e.notified3Days = false <;>
    by_cases h1 : daysUntilEvent now e.date = 1 ∧ e.notified1Day = false <;>
      simp [h3, h1]

/-- The loop body does not change the row's id. -/
theorem process_fst_id (now : Int) (e : CalendarEvent) :
    (processUpcomingEvent now e).1.id = e.id := by
  unfold processUpcomingEvent
  by_cases h3 : daysUntilEvent now e.date = 3 ∧ e.notified3Days = false <;>
    by_cases h1 : daysUntilEvent now e.date = 1 ∧ e.notified1Day = false <;>
      simp [h3, h1]

/-- After the loop body, a threshold's flag is its old value or-ed with
whether the threshold's day distance was hit. -/
theorem process_flag (now : Int) (e : CalendarEvent) (t : Threshold) :
    flagFor t (processUpcomingEvent now e).1 =
      (flagFor t e || decide (daysUntilEvent now e.date = thresholdDays t)) := by
  unfold processUpcomingEvent
  cases t <;>
    by_cases h3 : daysUntilEvent now e.date = 3 ∧ e.notified3Days = false <;>
      by_cases h1 : daysUntilEvent now e.date = 1 ∧ e.notified1Day = false <;>
        by_cases hd3 : daysUntilEvent now e.date = 3 <;>
          by_cases hd1 : daysUntilEvent now e.date = 1 <;>
            simp_all [flagFor, thresholdDays]

/-- An emission of the loop body fires a threshold whose flag was false,
at the threshold's day distance, with a notification addressed to the
event's user. -/
theorem process_mem (now : Int) (e : CalendarEvent) (q : Threshold × Notification)
    (h : q ∈ (processUpcomingEvent now e).2) :
    flagFor q.1 e = false ∧ daysUntilEvent now e.date = thresholdDays q.1 ∧
      q.2.userId = some e.userId := by
  rw [process_snd] at h
  rcases List.mem_append.mp h with h | h
  · by_cases h3 : daysUntilEvent now e.date = 3 ∧ e.notified3Days = false
    · rw [if_pos h3] at h
      rw [List.mem_singleton.mp h]
      exact ⟨h3.2, h3.1, rfl⟩
    · rw [if_neg h3] at h
      cases h
  · by_cases h1 : daysUntilEvent now e.date = 1 ∧ e.notified1Day = false
    · rw [if_pos h1] at h
      rw [List.mem_singleton.mp h]
      exact ⟨h1.2, h1.1, rfl⟩
    · rw [if_neg h1] at h
      cases h

/-- The loop body emits a due unsent threshold. -/
theorem process_mem_intro (now : Int) (e : CalendarEvent) (t : Threshold)
    (hd : daysUntilEvent now e.date = thresholdDays t) (hf : flagFor t e = false) :
    (t, (match t with
          | Threshold.threeDays => upcoming3Notification e
          | Threshold.oneDay => upcoming1Notification e)) ∈
      (processUpcomingEvent now e).2 := by
  rw [process_snd]
  cases t
  · exact List.mem_append_left _ (by rw [if_pos ⟨hd, hf⟩]; exact List.mem_singleton.mpr rfl)
  · exact List.mem_append_right _ (by rw [if_pos ⟨hd, hf⟩]; exact List.mem_singleton.mpr rfl)

/-- The loop body emits at most one entry per threshold. -/
theorem process_filter_len (now : Int) (e : CalendarEvent) (t : Threshold) :
    ((processUpcomingEvent now e).2.filter (fun q => q.1 = t)).length ≤ 1 := by
  rw [process_snd]
  cases t <;>
    by_cases h3 : daysUntilEvent now e.date = 3 ∧ e.notified3Days = false <;>
      by_cases h1 : daysUntilEvent now e.date = 1 ∧ e.notified1Day = false <;>
        simp [h3, h1]

/-- Table part of a run on a selected head. -/
theorem run_fst_cons_pos {now upper : Int} {e : CalendarEvent} {rest : List CalendarEvent}
    (hs : upcomingSelected now upper e = true) :
    (runUpcomingEvents now upper (e :: rest)).1 =
      (processUpcomingEvent now e).1 :: (runUpcomingEvents now upper rest).1 := by
  conv_lhs => rw [runUpcomingEvents]
  rw [if_pos hs]

/-- Table part of a run on an unselected head. -/
theorem run_fst_cons_neg {now upper : Int} {e : CalendarEvent} {rest : List CalendarEvent}
    (hs : upcomingSelected now upper e = false) :
    (runUpcomingEvents now upper (e :: rest)).1 =
      e :: (runUpcomingEvents now upper rest).1 := by
  conv_lhs => rw [runUpcomingEvents]
  rw [if_neg (by rw [hs]; exact Bool.false_ne_true)]

/-- Emission part of a run on a selected head. -/
theorem run_snd_cons_pos {now upper : Int} {e : CalendarEvent} {rest : List CalendarEvent}
    (hs : upcomingSelected now upper e = true) :
    (runUpcomingEvents now upper (e :: rest)).2 =
      (processUpcomingEvent now e).2.map (fun q => (e.id, q)) ++
        (runUpcomingEvents now upper rest).2 := by
  conv_lhs => rw [runUpcomingEvents]
  rw [if_pos hs]

/-- Emission part of a run on an unselected head. -/
theorem run_snd_cons_neg {now upper : Int} {e : CalendarEvent} {rest : List CalendarEvent}
    (hs : upcomingSelected now upper e = false) :
    (runUpcomingEvents now upper (e :: rest)).2 =
      (runUpcomingEvents now upper rest).2 := by
  conv_lhs => rw [runUpcomingEvents]
  rw [if_neg (by rw [hs]; exact Bool.false_ne_true)]

/-- The table after a run: each selected row processed in place,
unselected rows untouched. -/
theorem run_fst_map (now upper : Int) (evs : List CalendarEvent) :
    (runUpcomingEvents now upper evs).1 =
      evs.map (fun e => if upcomingSelected now upper e
        then (processUpcomingEvent now e).1 else e) := by
  induction evs with
  | nil => rfl
  | cons e rest ih =>
    cases hs : upcomingSelected now upper e
    · rw [run_fst_cons_neg hs, List.map_cons, if_neg (by rw [hs]; exact Bool.false_ne_true), ih]
    · rw [run_fst_cons_pos hs, List.map_cons, if_pos hs, ih]

/-- A run does not change the ids of the table. -/
theorem run_ids (now upper : Int) (evs : List CalendarEvent) :
    (runUpcomingEvents now upper evs).1.map (fun e => e.id) =
      evs.map (fun e => e.id) := by
  rw [run_fst_map, List.map_map]
  apply List.map_congr_left
  intro e _
  by_cases hs : upcomingSelected now upper e = true
  · simp only [Function.comp_apply, if_pos hs, process_fst_id]
  · simp only [Function.comp_apply, if_neg hs]

/-- Every emission of a run comes from a selected event it is tagged
with. -/
theorem run_mem_elim {now upper : Int} {evs : List CalendarEvent} {x : Emission}
    (h : x ∈ (runUpcomingEvents now upper evs).2) :
    ∃ e, e ∈ evs ∧ upcomingSelected now upper e = true ∧ x.1 = e.id ∧
      x.2 ∈ (processUpcomingEvent now e).2 := by
  induction evs with
  | nil => cases h
  | cons e rest ih =>
    cases hs : upcomingSelected now upper e
    · rw [run_snd_cons_neg hs] at h
      rcases ih h with ⟨e0, hmem, hsel, hid, hq⟩
      exact ⟨e0, List.mem_cons_of_mem _ hmem, hsel, hid, hq⟩
    · rw [run_snd_cons_pos hs] at h
      rcases List.mem_append.mp h with h | h
      · rcases List.mem_map.mp h with ⟨q, hq, rfl⟩
        exact ⟨e, List.mem_cons_self _ _, hs, rfl, hq⟩
      · rcases ih h with ⟨e0, hmem, hsel, hid, hq⟩
        exact ⟨e0, List.mem_cons_of_mem _ hmem, hsel, hid, hq⟩

/-- A selected event's emission appears in the run's emissions. -/
theorem run_mem_intro {now upper : Int} {evs : List CalendarEvent} {e : CalendarEvent}
    {q : Threshold × Notification} (hmem : e ∈ evs)
    (hs : upcomingSelected now upper e = true)
    (hq : q ∈ (processUpcomingEvent now e).2) :
    (e.id, q) ∈ (runUpcomingEvents now upper evs).2 := by
  induction evs with
  | nil => cases hmem
  | cons e0 rest ih =>
    rcases List.mem_cons.mp hmem with rfl | hmem0
    · rw [run_snd_cons_pos hs]
      exact List.mem_append_left _ (List.mem_map.mpr ⟨q, hq, rfl⟩)
    · cases hs0 : upcomingSelected now upper e0
      · rw [run_snd_cons_neg hs0]
        exact ih hmem0
      · rw [run_snd_cons_pos hs0]
        exact List.mem_append_right _ (ih hmem0)

/-- `emissionsFor` distributes over concatenation. -/
theorem emissionsFor_append (eid : Nat) (t : Threshold) (a b : List Emission) :
    emissionsFor eid t (a ++ b) = emissionsFor eid t a ++ emissionsFor eid t b := by
  unfold emissionsFor
  exact List.filter_append _ _

/-- The per-event emissions relevant to an id: all of them when the tag
matches, none otherwise. -/
theorem emissionsFor_tagged (eid : Nat) (t : Threshold) (i : Nat)
    (qs : List (Threshold × Notification)) :
    emissionsFor eid t (qs.map (fun q => (i, q))) =
      if i = eid then (qs.filter (fun q => q.1 = t)).map (fun q => (i, q)) else [] := by
  unfold emissionsFor
  rw [List.filter_map]
  by_cases hi : i = eid
  · rw [if_pos hi]
    congr 1
    apply List.filter_congr
    intro q _
    simp [Function.comp, hi]
  · rw [if_neg hi]
    have h0 : qs.filter ((fun x : Emission => decide (x.1 = eid ∧ x.2.1 = t)) ∘
        (fun q => (i, q))) = [] := by
      rw [List.filter_eq_nil_iff]
      intro q _
      simp [Function.comp, hi]
    rw [h0]
    rfl

/-- A run emits nothing for an id absent from the table. -/
theorem run_emissionsFor_nil {now upper : Int} {eid : Nat} {t : Threshold}
    {evs : List CalendarEvent} (h : ∀ e ∈ evs, e.id ≠ eid) :
    emissionsFor eid t (runUpcomingEvents now upper evs).2 = [] := by
  unfold emissionsFor
  rw [List.filter_eq_nil_iff]
  intro x hx
  rcases run_mem_elim hx with ⟨e, hmem, _, hid, _⟩
  simp only [decide_eq_true_eq, not_and]
  intro hxe
  exact absurd (hid.symm.trans hxe) (h e hmem)

/-- A run emits nothing for a threshold whose flag is already set on
every row with that id. -/
theorem run_emissionsFor_nil_of_flag {now upper : Int} {eid : Nat} {t : Threshold}
    {evs : List CalendarEvent}
    (h : ∀ e ∈ evs, e.id = eid → flagFor t e = true) :
    emissionsFor eid t (runUpcomingEvents now upper evs).2 = [] := by
  unfold emissionsFor
  rw [List.filter_eq_nil_iff]
  intro x hx
  rcases run_mem_elim hx with ⟨e, hmem, _, hid, hq⟩
  simp only [decide_eq_true_eq, not_and]
  intro hxe hxt
  have hflag := (process_mem now e x.2 hq).1
  rw [hxt] at hflag
  have := h e hmem (hid.symm.trans hxe)
  rw [this] at hflag
  cases hflag

/-- With distinct ids, one run fires a given threshold for a given event
at most once. -/
theorem run_emissionsFor_len {now upper : Int} (eid : Nat) (t : Threshold)
    (evs : List CalendarEvent) (hids : (evs.map (fun e => e.id)).Nodup) :
    (emissionsFor eid t (runUpcomingEvents now upper evs).2).length ≤ 1 := by
  induction evs with
  | nil => simp [runUpcomingEvents, emissionsFor]
  | cons e rest ih =>
    rw [List.map_cons, List.nodup_cons] at hids
    cases hs : upcomingSelected now upper e
    · rw [run_snd_cons_neg hs]
      exact ih hids.2
    · rw [run_snd_cons_pos hs, emissionsFor_append, List.length_append]
      rw [emissionsFor_tagged]
      by_cases hi : e.id = eid
      · rw [if_pos hi]
        have htail : emissionsFor eid t (runUpcomingEvents now upper rest).2 = [] := by
          apply run_emissionsFor_nil
          intro e0 hmem0 he0
          exact hids.1 (List.mem_map.mpr ⟨e0, hmem0, he0.trans hi.symm⟩)
        rw [htail]
        simp only [List.length_nil, Nat.add_zero, List.length_map]
        exact process_filter_len now e t
      · rw [if_neg hi]
        simp only [List.length_nil, Nat.zero_add]
        exact ih hids.2

/-- If a run fired a threshold for an id, every row of the resulting
table with that id carries the threshold's flag. -/
theorem run_flag_after {now upper : Int} {eid : Nat} {t : Threshold}
    {evs : List CalendarEvent} (hids : (evs.map (fun e => e.id)).Nodup)
    (hx : emissionsFor eid t (runUpcomingEvents now upper evs).2 ≠ []) :
    ∀ e2 ∈ (runUpcomingEvents now upper evs).1, e2.id = eid → flagFor t e2 = true := by
  rcases List.exists_mem_of_ne_nil _ hx with ⟨x, hxm⟩
  have hxf : x.1 = eid ∧ x.2.1 = t := by
    have := List.of_mem_filter hxm
    simpa [emissionsFor] using this
  have hxrun : x ∈ (runUpcomingEvents now upper evs).2 :=
    List.mem_of_mem_filter hxm
  rcases run_mem_elim hxrun with ⟨e, hmem, hsel, hid, hq⟩
  have hpm := process_mem now e x.2 hq
  intro e2 hmem2 hid2
  rw [run_fst_map] at hmem2
  rcases List.mem_map.mp hmem2 with ⟨e0, hmem0, rfl⟩
  by_cases hs0 : upcomingSelected now upper e0 = true
  · rw [if_pos hs0] at hid2 ⊢
    rw [process_fst_id] at hid2
    have he0 : e0 = e := event_id_inj hids hmem0 hmem (by rw [hid2, ← hid, hxf.1])
    subst he0
    rw [process_flag]
    rw [hxf.2] at hpm
    rw [hpm.2.1]
    simp
  · rw [if_neg hs0] at hid2 ⊢
    exfalso
    apply hs0
    have he0 : e0 = e := event_id_inj hids hmem0 hmem (by rw [hid2, ← hid, hxf.1])
    rw [he0]
    exact hsel

/-- An invitation event exactly three days ahead of time zero, with
both flags clear. -/
def sampleEventC : CalendarEvent :=
  { sampleEventB with id := 1, date := 259200000 }

/-- Claim C2 (counterexample): the claim says the fired reminder is a
broadcast Notification. Running the job at time zero over one event due
in exactly three days emits exactly one notification, and it is
addressed to the event's owning user (`userId = some "u1"`), not a
broadcast (`userId = null`). -/
theorem c2_broadcast_counterexample :
    (runUpcomingEvents 0 259200000 [sampleEventC]).2.map (fun x => x.2.2.userId) =
      [some "u1"] := by
  decide

/-- Claim C2 (amended): for every CalendarEvent scanned by one run of
the upcoming-event job, if the integer days-until-event is exactly 3 and
`notified3Days` is false the job emits a Notification addressed to the
event's owning user (not a broadcast) and sets `notified3Days`; likewise
for exactly 1 and `notified1Day`; every emitted notification carries an
owning user; and across this run and any later run over the resulting
table the same threshold is never fired twice for the same event. -/
theorem c2_upcoming_thresholds_amended (now upper now2 upper2 : Int)
    (evs : List CalendarEvent)
    (hids : (evs.map (fun e => e.id)).Nodup) :
    (∀ e ∈ evs, upcomingSelected now upper e = true →
      daysUntilEvent now e.date = 3 → e.notified3Days = false →
        (e.id, Threshold.threeDays, upcoming3Notification e) ∈
          (runUpcomingEvents now upper evs).2 ∧
        ∀ e2 ∈ (runUpcomingEvents now upper evs).1, e2.id = e.id →
          e2.notified3Days = true) ∧
    (∀ e ∈ evs, upcomingSelected now upper e = true →
      daysUntilEvent now e.date = 1 → e.notified1Day = false →
        (e.id, Threshold.oneDay, upcoming1Notification e) ∈
          (runUpcomingEvents now upper evs).2 ∧
        ∀ e2 ∈ (runUpcomingEvents now upper evs).1, e2.id = e.id →
          e2.notified1Day = true) ∧
    (∀ x ∈ (runUpcomingEvents now upper evs).2, x.2.2.userId ≠ none) ∧
    (∀ (eid : Nat) (t : Threshold),
      (emissionsFor eid t ((runUpcomingEvents now upper evs).2 ++
        (runUpcomingEvents now2 upper2 (runUpcomingEvents now upper evs).1).2)).length
        ≤ 1) := by
  have hids2 : ((runUpcomingEvents now upper evs).1.map (fun e => e.id)).Nodup := by
    rw [run_ids]
    exact hids
  refine ⟨?_, ?_, ?_, ?_⟩
  · intro e hmem hsel hd hf
    have hm : (e.id, Threshold.threeDays, upcoming3Notification e) ∈
        (runUpcomingEvents now upper evs).2 :=
      run_mem_intro hmem hsel (process_mem_intro now e Threshold.threeDays hd hf)
    refine ⟨hm, ?_⟩
    have hne : emissionsFor e.id Threshold.threeDays
        (runUpcomingEvents now upper evs).2 ≠ [] := by
      apply List.ne_nil_of_mem (a := (e.id, Threshold.threeDays, upcoming3Notification e))
      unfold emissionsFor
      exact List.mem_filter.mpr ⟨hm, by simp⟩
    exact run_flag_after hids hne
  · intro e hmem hsel hd hf
    have hm : (e.id, Threshold.oneDay, upcoming1Notification e) ∈
        (runUpcomingEvents now upper evs).2 :=
      run_mem_intro hmem hsel (process_mem_intro now e Threshold.oneDay hd hf)
    refine ⟨hm, ?_⟩
    have hne : emissionsFor e.id Threshold.oneDay
        (runUpcomingEvents now upper evs).2 ≠ [] := by
      apply List.ne_nil_of_mem (a := (e.id, Threshold.oneDay, upcoming1Notification e))
      unfold emissionsFor
      exact List.mem_filter.mpr ⟨hm, by simp⟩
    exact run_flag_after hids hne
  · intro x hx
    rcases run_mem_elim hx with ⟨e, _, _, _, hq⟩
    have := (process_mem now e x.2 hq).2.2
    rw [this]
    intro hc
    cases hc
  · intro eid t
    rw [emissionsFor_append, List.length_append]
    by_cases hone : emissionsFor eid t (runUpcomingEvents now upper evs).2 = []
    · rw [hone]
      simp only [List.length_nil, Nat.zero_add]
      exact run_emissionsFor_len eid t _ hids2
    · have hflags := run_flag_after hids hone
      have h2 : emissionsFor eid t
          (runUpcomingEvents now2 upper2 (runUpcomingEvents now upper evs).1).2 = [] :=
        run_emissionsFor_nil_of_flag hflags
      rw [h2]
      simp only [List.length_nil, Nat.add_zero]
      exact run_emissionsFor_len eid t evs hids

/-- Claim C2 (witness): at time zero, the event three days ahead fires
the 3-day reminder, and the threshold is not fired again by a later run
one day further on. -/
theorem c2_upcoming_thresholds_witness :
    (sampleEventC.id, Threshold.threeDays, upcoming3Notification sampleEventC) ∈
      (runUpcomingEvents 0 259200000 [sampleEventC]).2 ∧
    (emissionsFor 1 Threshold.threeDays ((runUpcomingEvents 0 259200000 [sampleEventC]).2 ++
      (runUpcomingEvents 86400000 259200000
        (runUpcomingEvents 0 259200000 [sampleEventC]).1).2)).length ≤ 1 := by
  have h := c2_upcoming_thresholds_amended 0 259200000 86400000 259200000 [sampleEventC]
    (by decide)
  exact ⟨(h.1 sampleEventC (by decide) (by decide) (by decide) (by decide)).1,
    h.2.2.2 1 Threshold.threeDays⟩

end Arsana
